import Mathlib

/-!
# Verification of the Lumina presentation codec

This file gives a shallow embedding of the document model and the two file-format
codecs of the Lumina repository (src/model/*, src/format/odp/*, src/format/pptx/*),
and proves or refutes the frozen claims about them.

Modelling conventions:
* Rust `f64` values are modelled as exact rationals (`ℚ`).  All the arithmetic the
  codecs perform on dimensions (unit conversion by fixed rational ratios, decimal
  formatting with four digits, decimal parsing) is exactly representable this way;
  the claims under study state tolerances (1/10000 cm) that dwarf binary rounding,
  which is therefore not modelled.  The spellings `inf`/`infinity`/`nan`, which
  Rust's `f64` parser also accepts and which produce non-finite values with no
  rational counterpart, are treated as unparseable; no claim exercises them.
* XML handling (the `quick_xml` crate) is abstracted to the event-stream interface
  the Rust readers actually consume: a reader is a fold over a list of `XmlEvent`s,
  and the writer is modelled as producing the event list that its generated markup
  parses to.  Event names and attribute keys carry the full qualified name; the
  readers compare local names, mirroring `local_name()` in the source.  Text events
  carry already-unescaped text (escaping on write and unescaping on read by the XML
  layer compose to the identity).
* ZIP containers are abstracted to partial maps from entry names to contents.
* `Uuid` identities (`Uuid::new_v4`, fresh randomness) are omitted from the model;
  no claim mentions them.
-/

namespace Lumina

/-! ## Characters, digits and low-level string helpers -/

/-- Decimal digit value of a character, `none` when not an ASCII digit. -/
def digitVal? (c : Char) : Option Nat :=
  if c.isDigit then some (c.toNat - 48) else none

/-- Value of a list of ASCII decimal digits, most significant first
(the accumulator loop used by a decimal parser). -/
def digitsVal (l : List Char) : Nat :=
  l.foldl (fun a c => a * 10 + (c.toNat - 48)) 0

/-- ASCII lower-casing, as Rust's `eq_ignore_ascii_case` uses. -/
def asciiLower (c : Char) : Char :=
  if 'A' ≤ c ∧ c ≤ 'Z' then Char.ofNat (c.toNat + 32) else c

/-- Whitespace as trimmed by `str::trim` (restricted to the ASCII whitespace
characters; no input in this development contains non-ASCII whitespace). -/
def isWs (c : Char) : Bool :=
  c = ' ' ∨ c = '\t' ∨ c = '\n' ∨ c = '\r'

/-- `str::trim` on a character list. -/
def trimChars (l : List Char) : List Char :=
  ((l.dropWhile isWs).reverse.dropWhile isWs).reverse

/-- `str::strip_suffix`: drop the given ending when present. -/
def dropEnding? (l suf : List Char) : Option (List Char) :=
  if suf.isSuffixOf l then some (l.take (l.length - suf.length)) else none

/-- Local part of a qualified XML name: everything after the first colon,
or the whole name when there is none (`quick_xml`'s `local_name()`). -/
def localChars (l : List Char) : List Char :=
  match l.dropWhile (fun c => c ≠ ':') with
  | [] => l
  | _ :: r => r

/-- `localChars`, packaged for `String`s. -/
def localName (s : String) : String := ⟨localChars s.data⟩

/-! ## The Rust `f64` string parser (finite decimal forms)

Rust's `f64::from_str` accepts `Sign? (​'inf' | 'infinity' | 'nan' | Number)`
with `Number ::= Count '.'? Exp? | '.' Count Exp? | Count '.' Count Exp?`,
`Exp ::= ('e'|'E') Sign? Count`, `Count ::= Digit+`.  The finite `Number`
forms are parsed to their exact rational value; the three non-finite word
forms are treated as unparseable here (see the file comment). -/

/-- Strip one optional leading sign; `true` means negative. -/
def stripSign (l : List Char) : Bool × List Char :=
  match l with
  | [] => (false, [])
  | c :: r => if c = '+' then (false, r) else if c = '-' then (true, r) else (false, l)

/-- Parse the optional exponent part, requiring full consumption.
`some e` on success (`some 0` for the empty remainder). -/
def parseExp : List Char → Option ℤ
  | [] => some 0
  | c :: r =>
      if c = 'e' ∨ c = 'E' then
        let d := (stripSign r).2.takeWhile Char.isDigit
        let rest := (stripSign r).2.dropWhile Char.isDigit
        if d.isEmpty ∨ ¬ rest.isEmpty then none
        else some (if (stripSign r).1 then -(digitsVal d : ℤ) else (digitsVal d : ℤ))
      else none

/-- Parse an unsigned `Number` (mantissa and optional exponent), requiring
full consumption, to its exact rational value. -/
def parseDec (l : List Char) : Option ℚ :=
  let d1 := l.takeWhile Char.isDigit
  let r1 := l.dropWhile Char.isDigit
  if r1.head? = some '.' then
    let d2 := r1.tail.takeWhile Char.isDigit
    let r3 := r1.tail.dropWhile Char.isDigit
    if d1.isEmpty ∧ d2.isEmpty then none
    else
      (parseExp r3).map fun e =>
        ((digitsVal d1 : ℚ) + (digitsVal d2 : ℚ) / 10 ^ d2.length) * 10 ^ e
  else
    if d1.isEmpty then none
    else (parseExp r1).map fun e => (digitsVal d1 : ℚ) * 10 ^ e

/-- The model of `str::parse::<f64>()` on the finite decimal grammar. -/
def parseF64 (l : List Char) : Option ℚ :=
  (parseDec (stripSign l).2).map fun q => if (stripSign l).1 then -q else q

/-! ## Unit conversion (src/format/odp/constants.rs, src/format/pptx/constants.rs) -/

/-- The fixed pt/cm ratio used by the ODP codec (`28.3465`). -/
def cmRate : ℚ := 283465 / 10000

/-- `pt_to_cm`. -/
def pt_to_cm (pt : ℚ) : ℚ := pt / cmRate

/-- `cm_to_pt`. -/
def cm_to_pt (cm : ℚ) : ℚ := cm * cmRate

/-- `EMU_PER_PT`. -/
def EMU_PER_PT : ℚ := 12700

/-- `emu_to_pt`. -/
def emu_to_pt (emu : ℤ) : ℚ := (emu : ℚ) / EMU_PER_PT

/-- `half_pt_to_pt` (hundredths-of-a-point font sizes). -/
def half_pt_to_pt (half_pt : ℚ) : ℚ := half_pt / 100

/-- `parse_cm` (src/format/odp/constants.rs): trim, strip an optional
`cm`/`in`/`pt` ending (in that order), parse the remainder as `f64`, and
convert to points. -/
def parse_cm (s : String) : Option ℚ :=
  match dropEnding? (trimChars s.data) "cm".data with
  | some v => (parseF64 v).map cm_to_pt
  | none =>
    match dropEnding? (trimChars s.data) "in".data with
    | some v => (parseF64 v).map (fun q => q * 72)
    | none =>
      match dropEnding? (trimChars s.data) "pt".data with
      | some v => parseF64 v
      | none => (parseF64 (trimChars s.data)).map cm_to_pt

/-! ## Decimal and hexadecimal formatting -/

/-- The ASCII character of a decimal digit (used to model `format!("{}", n)`). -/
def decDigit : Nat → Char
  | 0 => '0' | 1 => '1' | 2 => '2' | 3 => '3' | 4 => '4'
  | 5 => '5' | 6 => '6' | 7 => '7' | 8 => '8' | _ => '9'

/-- Decimal spelling of a natural number, as `format!("{}", n)` prints it. -/
def decRepr (n : Nat) : List Char :=
  if n = 0 then ['0'] else (Nat.digits 10 n).reverse.map decDigit

/-- `decRepr`, packaged for `String`s. -/
def natStr (n : Nat) : String := ⟨decRepr n⟩

/-- Zero-pad a digit list on the left to the given width
(used to model `format!("{:.4}", _)` fractional digits). -/
def padZero (w : Nat) (l : List Char) : List Char :=
  List.replicate (w - l.length) '0' ++ l

/-- `format!("{:.4}cm", pt_to_cm pt)`: the centimetre value rounded to four
decimal digits, spelled with exactly four fractional digits, with the `cm`
ending.  Rust rounds the binary value half-to-even; the model rounds the exact
rational half-up — both land within half an ulp of the true value, which is all
any claim uses.  (For tiny negative values Rust prints a `-0.0000` the model
spells `0.0000`; both parse back to the same number.) -/
def format_cm (pt : ℚ) : String :=
  let n : ℤ := round (pt_to_cm pt * 10000)
  let digits := decRepr (n.natAbs / 10000) ++ '.' :: padZero 4 (decRepr (n.natAbs % 10000)) ++ "cm".data
  ⟨if n < 0 then '-' :: digits else digits⟩

/-- The rounded centimetre value `format_cm` spells (as an exact rational). -/
def round4 (c : ℚ) : ℚ := (round (c * 10000) : ℚ) / 10000

/-- Hex digit value (both cases), `none` otherwise. -/
def hexVal? (c : Char) : Option Nat :=
  if c.isDigit then some (c.toNat - 48)
  else if 'a' ≤ c ∧ c ≤ 'f' then some (c.toNat - 87)
  else if 'A' ≤ c ∧ c ≤ 'F' then some (c.toNat - 55)
  else none

/-- `u8::from_str_radix(s, 16)` on a character list: one optional `+` sign
(unsigned parsing rejects `-`), then one or more hex digits.  The inputs in
this code are always exactly two characters, so overflow cannot occur and is
not modelled. -/
def parseHex (l : List Char) : Option Nat :=
  let body := if l.head? = some '+' then l.tail else l
  if body.isEmpty then none
  else
    body.foldl (fun acc c => match acc, hexVal? c with
      | some a, some v => some (a * 16 + v)
      | _, _ => none) (some 0)

/-- The ASCII character of a lower-case hex digit. -/
def hexDigit (n : Nat) : Char :=
  if n < 10 then decDigit n
  else if n = 10 then 'a' else if n = 11 then 'b' else if n = 12 then 'c'
  else if n = 13 then 'd' else if n = 14 then 'e' else 'f'

/-- `format!("{:02x}", v)` for a byte value. -/
def hexPair (v : Nat) : List Char := [hexDigit (v / 16), hexDigit (v % 16)]

/-! ## The document model (src/model/) -/

/-- `Point` (src/model/geometry.rs). -/
structure Point where
  x : ℚ
  y : ℚ
deriving DecidableEq, Repr

/-- `Size` (src/model/geometry.rs). -/
structure Size where
  width : ℚ
  height : ℚ
deriving DecidableEq, Repr

/-- `DEFAULT_SLIDE_SIZE`: 960×540 points. -/
def DEFAULT_SLIDE_SIZE : Size := ⟨960, 540⟩

/-- `Rect` (src/model/geometry.rs). -/
structure Rect where
  origin : Point
  size : Size
deriving DecidableEq, Repr

/-- `Rect::new`. -/
def Rect.mk4 (x y width height : ℚ) : Rect := ⟨⟨x, y⟩, ⟨width, height⟩⟩

/-- `Color` (src/model/style.rs): normalized RGBA components. -/
structure Color where
  r : ℚ
  g : ℚ
  b : ℚ
  a : ℚ
deriving DecidableEq, Repr

/-- `Color::rgb`. -/
def Color.rgb (r g b : ℚ) : Color := ⟨r, g, b, 1⟩

/-- `Color::black`. -/
def Color.black : Color := Color.rgb 0 0 0

/-- `Color::white`. -/
def Color.white : Color := Color.rgb 1 1 1

/-- `Color::from_hex`: drop every leading `#`, require exactly six characters,
parse the three two-character slices in radix 16, and normalize to [0,1]. -/
def Color.from_hex (hex : String) : Option Color :=
  let h := hex.data.dropWhile (fun c => c = '#')
  if h.length ≠ 6 then none
  else do
    let r ← parseHex (h.take 2)
    let g ← parseHex ((h.drop 2).take 2)
    let b ← parseHex ((h.drop 4).take 2)
    pure (Color.rgb ((r : ℚ) / 255) ((g : ℚ) / 255) ((b : ℚ) / 255))

/-- `StrokeStyle` (src/model/style.rs). -/
structure StrokeStyle where
  color : Color
  width : ℚ
deriving DecidableEq, Repr

/-- `StrokeStyle::default`: black, width 2. -/
def StrokeStyle.dflt : StrokeStyle := ⟨Color.black, 2⟩

/-- `FillStyle` (src/model/style.rs). -/
structure FillStyle where
  color : Color
deriving DecidableEq, Repr

/-- `FontStyle` (src/model/style.rs). -/
structure FontStyle where
  family : String
  size : ℚ
  bold : Bool
  italic : Bool
  color : Color
deriving DecidableEq, Repr

/-- `FontStyle::default`: Sans 24pt regular black. -/
def FontStyle.dflt : FontStyle := ⟨"Sans", 24, false, false, Color.black⟩

/-- `TextAlignment` (src/model/text.rs). -/
inductive TextAlignment where
  | left
  | center
  | right
deriving DecidableEq, Repr

/-- `TextRun` (src/model/text.rs). -/
structure TextRun where
  text : String
  font : FontStyle
deriving DecidableEq, Repr

/-- `TextParagraph` (src/model/text.rs). -/
structure TextParagraph where
  runs : List TextRun
deriving DecidableEq, Repr

/-- `TextParagraph::plain`. -/
def TextParagraph.plain (text : String) : TextParagraph := ⟨[⟨text, FontStyle.dflt⟩]⟩

/-- `TextParagraph::full_text`: concatenation of the run texts. -/
def TextParagraph.full_text (p : TextParagraph) : String :=
  p.runs.foldl (fun acc r => acc ++ r.text) ""

/-- `TextElement` (src/model/text.rs).  The random `Uuid` identity is omitted
from the model (see the file comment). -/
structure TextElement where
  bounds : Rect
  rotation : ℚ
  paragraphs : List TextParagraph
  alignment : TextAlignment
  fill : Option FillStyle
deriving DecidableEq, Repr

/-- `TextElement::new`. -/
def TextElement.mk2 (bounds : Rect) (text : String) : TextElement :=
  ⟨bounds, 0, [TextParagraph.plain text], .left, none⟩

/-- `ShapeType` (src/model/shape.rs). -/
inductive ShapeType where
  | rectangle
  | ellipse
  | line
deriving DecidableEq, Repr

/-- `ShapeElement` (src/model/shape.rs), `Uuid` omitted. -/
structure ShapeElement where
  bounds : Rect
  rotation : ℚ
  shape_type : ShapeType
  fill : Option FillStyle
  stroke : Option StrokeStyle
deriving DecidableEq, Repr

/-- `ShapeElement::new`: lines get no fill and a default stroke; rectangles and
ellipses get the `#4a86cf` fill (74, 134, 207 in 8-bit channels) and a default
stroke. -/
def ShapeElement.mk2 (bounds : Rect) (shape_type : ShapeType) : ShapeElement :=
  match shape_type with
  | .line => ⟨bounds, 0, shape_type, none, some StrokeStyle.dflt⟩
  | _ => ⟨bounds, 0, shape_type,
      some ⟨Color.rgb (74 / 255) (134 / 255) (207 / 255)⟩, some StrokeStyle.dflt⟩

/-- `ImageData` (src/model/image.rs): embedded raw bytes plus a MIME string. -/
structure ImageData where
  data : List Nat
  mime : String
deriving DecidableEq, Repr

/-- `ScaleMode` (src/model/image.rs). -/
inductive ScaleMode where
  | fit
  | fill
  | stretch
deriving DecidableEq, Repr

/-- `ImageElement` (src/model/image.rs), `Uuid` omitted. -/
structure ImageElement where
  bounds : Rect
  rotation : ℚ
  image_data : ImageData
  scale_mode : ScaleMode
deriving DecidableEq, Repr

/-- `ImageElement::new`. -/
def ImageElement.mk2 (bounds : Rect) (data : List Nat) (mime : String) : ImageElement :=
  ⟨bounds, 0, ⟨data, mime⟩, .fit⟩

/-- `SlideElement` (src/model/element.rs): the tagged union. -/
inductive SlideElement where
  | text (e : TextElement)
  | image (e : ImageElement)
  | shape (e : ShapeElement)
deriving DecidableEq, Repr

/-- `SlideElement::bounds`. -/
def SlideElement.bounds : SlideElement → Rect
  | .text e => e.bounds
  | .image e => e.bounds
  | .shape e => e.bounds

/-- `Background` (src/model/slide.rs). -/
structure Background where
  solid : Color
deriving DecidableEq, Repr

/-- `Slide` (src/model/slide.rs), `Uuid` omitted. -/
structure Slide where
  elements : List SlideElement
  background : Background
  notes : String
deriving DecidableEq, Repr

/-- `Slide::new`: no elements, white background, empty notes. -/
def Slide.new : Slide := ⟨[], ⟨Color.white⟩, ""⟩

/-- `Slide::add_element`. -/
def Slide.add_element (s : Slide) (e : SlideElement) : Slide :=
  { s with elements := s.elements ++ [e] }

/-- `DocumentMetadata` (src/model/document.rs). -/
structure DocumentMetadata where
  author : String
  created : String
  modified : String
deriving DecidableEq, Repr

/-- `Document` (src/model/document.rs). -/
structure Document where
  title : String
  slides : List Slide
  slide_size : Size
  metadata : DocumentMetadata
deriving DecidableEq, Repr

/-- `Document::new`: one fresh slide, default size, empty metadata. -/
def Document.new : Document :=
  ⟨"Untitled Presentation", [Slide.new], DEFAULT_SLIDE_SIZE, ⟨"", "", ""⟩⟩

/-- `Document::add_slide`: push a slide, return its index (Rust mutates the
document and returns the index; the model returns both). -/
def Document.add_slide (d : Document) : Document × Nat :=
  ({ d with slides := d.slides ++ [Slide.new] }, d.slides.length)

/-- `Document::insert_slide`: insert at `min index len`, return the index used. -/
def Document.insert_slide (d : Document) (index : Nat) : Document × Nat :=
  let idx := min index d.slides.length
  ({ d with slides := d.slides.take idx ++ Slide.new :: d.slides.drop idx }, idx)

/-- `Document::remove_slide`: remove and return the slide at `index` only when
more than one slide exists and the index is in range; otherwise `none` and the
document is untouched. -/
def Document.remove_slide (d : Document) (index : Nat) : Option Slide × Document :=
  if d.slides.length > 1 ∧ index < d.slides.length then
    (d.slides[index]?, { d with slides := d.slides.eraseIdx index })
  else
    (none, d)

/-- `Document::move_slide`: remove at `from`, reinsert at `to`, when both are in
range and distinct. -/
def Document.move_slide (d : Document) (src dst : Nat) : Document :=
  if src < d.slides.length ∧ dst < d.slides.length ∧ src ≠ dst then
    match d.slides[src]? with
    | some sl =>
        let rest := d.slides.eraseIdx src
        { d with slides := rest.take dst ++ sl :: rest.drop dst }
    | none => d
  else d

/-! ## XML events and containers

The readers consume `quick_xml` event streams; the model works directly on the
event list a part parses to (see the file comment).  `decl` stands for the
`<?xml …?>` declaration, which every reader ignores. -/

/-- One `quick_xml` event.  Names and attribute keys are fully qualified;
attribute values and text are already unescaped. -/
inductive XmlEvent where
  | decl
  | start (name : String) (attrs : List (String × String))
  | empty (name : String) (attrs : List (String × String))
  | text (s : String)
  | close (name : String)
deriving DecidableEq, Repr

/-- A ZIP container, abstracted to a partial map from entry names to raw bytes
(used by the ODP reader for embedded images). -/
def Archive := String → Option (List Nat)

/-- `get_attr` (src/format/odp/reader.rs): value of the first attribute with
the given local name, empty string when absent. -/
def get_attr (attrs : List (String × String)) (l : String) : String :=
  match attrs.find? (fun kv => localName kv.1 = l) with
  | some kv => kv.2
  | none => ""

/-- `guess_mime` (same logic in both readers; the pptx variant also maps
`.emf`/`.wmf` to the png fallback, which is the default case anyway). -/
def guess_mime (path : String) : String :=
  if "png".data.isSuffixOf path.data then "image/png"
  else if "jpg".data.isSuffixOf path.data then "image/jpeg"
  else if "jpeg".data.isSuffixOf path.data then "image/jpeg"
  else if "svg".data.isSuffixOf path.data then "image/svg+xml"
  else if "webp".data.isSuffixOf path.data then "image/webp"
  else "image/png"

/-! ## Format-A (ODP) reader: style pass (src/format/odp/reader.rs) -/

/-- `StyleInfo`: one named automatic-style record. -/
structure StyleInfo where
  fill_color : Option Color
  stroke_color : Option Color
  stroke_width : Option ℚ
  has_fill : Bool
  has_stroke : Bool
  font_size : Option ℚ
  font_color : Option Color
  font_family : Option String
  font_bold : Bool
  font_italic : Bool
  text_align : Option TextAlignment
deriving DecidableEq, Repr

/-- `StyleInfo::default`. -/
def StyleInfo.dflt : StyleInfo :=
  ⟨none, none, none, false, false, none, none, none, false, false, none⟩

/-- `parse_graphic_props`: fold the attributes into the style record. -/
def parse_graphic_props (attrs : List (String × String)) (st : StyleInfo) : StyleInfo :=
  attrs.foldl (fun st kv =>
    let key := localName kv.1
    if key = "fill" then { st with has_fill := kv.2 = "solid" }
    else if key = "fill-color" then { st with fill_color := Color.from_hex kv.2 }
    else if key = "stroke" then { st with has_stroke := kv.2 = "solid" }
    else if key = "stroke-color" then { st with stroke_color := Color.from_hex kv.2 }
    else if key = "stroke-width" then { st with stroke_width := parse_cm kv.2 }
    else st) st

/-- `parse_text_props`. -/
def parse_text_props (attrs : List (String × String)) (st : StyleInfo) : StyleInfo :=
  attrs.foldl (fun st kv =>
    let key := localName kv.1
    if key = "font-size" then
      match dropEnding? kv.2.data "pt".data with
      | some v => { st with font_size := parseF64 v }
      | none => st
    else if key = "color" then { st with font_color := Color.from_hex kv.2 }
    else if key = "font-name" ∨ key = "font-family" then { st with font_family := some kv.2 }
    else if key = "font-weight" then { st with font_bold := kv.2 = "bold" }
    else if key = "font-style" then { st with font_italic := kv.2 = "italic" }
    else st) st

/-- `parse_paragraph_props`. -/
def parse_paragraph_props (attrs : List (String × String)) (st : StyleInfo) : StyleInfo :=
  attrs.foldl (fun st kv =>
    if localName kv.1 = "text-align" then
      { st with text_align := some (if kv.2 = "center" then TextAlignment.center
                                    else if kv.2 = "end" ∨ kv.2 = "right" then TextAlignment.right
                                    else TextAlignment.left) }
    else st) st

/-- State of the first (style-collecting) pass over `content.xml`.  The style
table is an association list searched front-to-back; prepending on insert gives
the `HashMap::insert` replacement semantics ("later records with the same name
replace earlier ones"). -/
structure StylePassState where
  styles : List (String × StyleInfo)
  in_auto_styles : Bool
  current_style_name : String
  current_style : StyleInfo

/-- Initial first-pass state. -/
def StylePassState.init : StylePassState := ⟨[], false, "", StyleInfo.dflt⟩

/-- Style-table lookup (`HashMap::get`). -/
def lookupStyle (styles : List (String × StyleInfo)) (name : String) : Option StyleInfo :=
  (styles.find? (fun kv => kv.1 = name)).map (·.2)

/-- One event of the style pass. -/
def stylePassStep (s : StylePassState) (e : XmlEvent) : StylePassState :=
  match e with
  | .start name attrs =>
      let n := localName name
      if n = "automatic-styles" then { s with in_auto_styles := true }
      else if s.in_auto_styles ∧ n = "style" then
        { s with current_style := StyleInfo.dflt,
                 current_style_name :=
                   attrs.foldl (fun acc kv =>
                     if localName kv.1 = "name" then kv.2 else acc) s.current_style_name }
      else s
  | .empty name attrs =>
      let n := localName name
      if s.in_auto_styles then
        if n = "graphic-properties" then
          { s with current_style := parse_graphic_props attrs s.current_style }
        else if n = "text-properties" then
          { s with current_style := parse_text_props attrs s.current_style }
        else if n = "paragraph-properties" then
          { s with current_style := parse_paragraph_props attrs s.current_style }
        else s
      else s
  | .close name =>
      let n := localName name
      if n = "automatic-styles" then { s with in_auto_styles := false }
      else if s.in_auto_styles ∧ n = "style" then
        if s.current_style_name ≠ "" then
          { s with styles := (s.current_style_name, s.current_style) :: s.styles,
                   current_style := StyleInfo.dflt }
        else s
      else s
  | _ => s

/-! ## Format-A (ODP) reader: content pass -/

/-- `parse_bounds`: read `x`/`y`/`width`/`height` attributes (defaults
0, 0, 100, 100), each through `parse_cm`. -/
def boundsStep (q : ℚ × ℚ × ℚ × ℚ) (kv : String × String) : ℚ × ℚ × ℚ × ℚ :=
  let key := localName kv.1
  if key = "x" then match parse_cm kv.2 with | some v => (v, q.2) | none => q
  else if key = "y" then match parse_cm kv.2 with | some v => (q.1, v, q.2.2) | none => q
  else if key = "width" then
    match parse_cm kv.2 with | some v => (q.1, q.2.1, v, q.2.2.2) | none => q
  else if key = "height" then
    match parse_cm kv.2 with | some v => (q.1, q.2.1, q.2.2.1, v) | none => q
  else q

def parse_bounds (attrs : List (String × String)) : Rect :=
  let q := attrs.foldl boundsStep (0, 0, 100, 100)
  Rect.mk4 q.1 q.2.1 q.2.2.1 q.2.2.2

/-- `parse_line_bounds`: read the endpoints (defaults 0, 0, 100, 0) and
normalize to an origin-plus-nonnegative-size rectangle. -/
def lineStep (q : ℚ × ℚ × ℚ × ℚ) (kv : String × String) : ℚ × ℚ × ℚ × ℚ :=
  let key := localName kv.1
  if key = "x1" then match parse_cm kv.2 with | some v => (v, q.2) | none => q
  else if key = "y1" then match parse_cm kv.2 with | some v => (q.1, v, q.2.2) | none => q
  else if key = "x2" then
    match parse_cm kv.2 with | some v => (q.1, q.2.1, v, q.2.2.2) | none => q
  else if key = "y2" then
    match parse_cm kv.2 with | some v => (q.1, q.2.1, q.2.2.1, v) | none => q
  else q

def parse_line_bounds (attrs : List (String × String)) : Rect :=
  let q := attrs.foldl lineStep (0, 0, 100, 0)
  let x1 := q.1; let y1 := q.2.1; let x2 := q.2.2.1; let y2 := q.2.2.2
  Rect.mk4 (min x1 x2) (min y1 y2) |x2 - x1| |y2 - y1|

/-- `build_shape`: start from the constructor defaults and apply the resolved
style record, when there is one. -/
def build_shape (shape_type : ShapeType) (bounds : Rect) (style_name : String)
    (styles : List (String × StyleInfo)) : ShapeElement :=
  let shape := ShapeElement.mk2 bounds shape_type
  match lookupStyle styles style_name with
  | some style =>
      { shape with
        fill := if style.has_fill then style.fill_color.map (⟨·⟩) else none,
        stroke := if style.has_stroke then
            some ⟨style.stroke_color.getD Color.black, style.stroke_width.getD 2⟩
          else none }
  | none => shape

/-- State of the second (content) pass over `content.xml`. -/
structure ContentPassState where
  in_presentation : Bool
  in_page : Bool
  in_text_box : Bool
  in_paragraph : Bool
  in_span : Bool
  in_frame : Bool
  current_elements : List SlideElement
  current_paragraphs : List TextParagraph
  current_runs : List TextRun
  current_run_text : String
  current_run_style : FontStyle
  current_text_align : TextAlignment
  frame_bounds : Rect
  slides : List Slide

/-- Initial second-pass state. -/
def ContentPassState.init : ContentPassState :=
  ⟨false, false, false, false, false, false, [], [], [], "", FontStyle.dflt, .left,
   Rect.mk4 0 0 100 100, []⟩

/-- One event of the content pass. -/
def contentPassStep (styles : List (String × StyleInfo)) (archive : Archive)
    (s : ContentPassState) (e : XmlEvent) : ContentPassState :=
  match e with
  | .start name attrs =>
      let n := localName name
      if n = "presentation" then { s with in_presentation := true }
      else if n = "page" then
        if s.in_presentation then { s with in_page := true, current_elements := [] } else s
      else if n = "frame" then
        if s.in_page then { s with in_frame := true, frame_bounds := parse_bounds attrs } else s
      else if n = "text-box" then
        if s.in_frame then { s with in_text_box := true, current_paragraphs := [] } else s
      else if n = "p" then
        if s.in_text_box then
          { s with in_paragraph := true, current_runs := [],
                   current_text_align :=
                     ((lookupStyle styles (get_attr attrs "style-name")).bind
                       (·.text_align)).getD .left }
        else s
      else if n = "span" then
        if s.in_paragraph then
          { s with in_span := true, current_run_text := "",
                   current_run_style :=
                     match lookupStyle styles (get_attr attrs "style-name") with
                     | some style =>
                         ⟨style.font_family.getD "Sans", style.font_size.getD 24,
                          style.font_bold, style.font_italic,
                          style.font_color.getD Color.black⟩
                     | none => FontStyle.dflt }
        else s
      else s
  | .empty name attrs =>
      let n := localName name
      if n = "rect" then
        if s.in_page then
          { s with current_elements := s.current_elements ++
              [.shape (build_shape .rectangle (parse_bounds attrs)
                (get_attr attrs "style-name") styles)] }
        else s
      else if n = "ellipse" then
        if s.in_page then
          { s with current_elements := s.current_elements ++
              [.shape (build_shape .ellipse (parse_bounds attrs)
                (get_attr attrs "style-name") styles)] }
        else s
      else if n = "line" then
        if s.in_page then
          { s with current_elements := s.current_elements ++
              [.shape (build_shape .line (parse_line_bounds attrs)
                (get_attr attrs "style-name") styles)] }
        else s
      else if n = "image" then
        if s.in_frame then
          let href := get_attr attrs "href"
          if href ≠ "" then
            match archive href with
            | some data =>
                { s with in_text_box := false, in_frame := false,
                         current_elements := s.current_elements ++
                           [.image (ImageElement.mk2 s.frame_bounds data (guess_mime href))] }
            | none => s
          else s
        else s
      else s
  | .text str =>
      if s.in_span then { s with current_run_text := s.current_run_text ++ str }
      else if s.in_paragraph then
        if (⟨trimChars str.data⟩ : String) ≠ "" then
          { s with current_runs := s.current_runs ++ [⟨str, FontStyle.dflt⟩] }
        else s
      else s
  | .close name =>
      let n := localName name
      if n = "presentation" then { s with in_presentation := false }
      else if n = "page" then
        if s.in_page then
          { s with in_page := false, current_elements := [],
                   slides := s.slides ++ [{ Slide.new with elements := s.current_elements }] }
        else s
      else if n = "frame" then
        if s.in_frame then { s with in_frame := false } else s
      else if n = "text-box" then
        if s.in_text_box then
          { s with in_text_box := false, current_paragraphs := [],
                   current_elements :=
                     if s.current_paragraphs ≠ [] then
                       s.current_elements ++
                         [.text { TextElement.mk2 s.frame_bounds "" with
                                    paragraphs := s.current_paragraphs,
                                    alignment := s.current_text_align }]
                     else s.current_elements }
        else s
      else if n = "p" then
        if s.in_paragraph then
          { s with in_paragraph := false, current_runs := [],
                   current_paragraphs := s.current_paragraphs ++ [⟨s.current_runs⟩] }
        else s
      else if n = "span" then
        if s.in_span then
          { s with in_span := false, current_run_text := "",
                   current_runs :=
                     if s.current_run_text ≠ "" then
                       s.current_runs ++ [⟨s.current_run_text, s.current_run_style⟩]
                     else s.current_runs }
        else s
      else s
  | .decl => s

/-- `parse_content`: collect styles in a first pass, then parse slides and
elements in a second pass; guarantee at least one slide. -/
def parse_content (events : List XmlEvent) (archive : Archive) : Document :=
  let styles := (events.foldl stylePassStep StylePassState.init).styles
  let final := events.foldl (contentPassStep styles archive) ContentPassState.init
  { Document.new with slides := if final.slides = [] then [Slide.new] else final.slides }

/-! ## Format-B (PPTX) reader (src/format/pptx/reader.rs) -/

/-- A PPTX container: XML parts (as the event lists they parse to) and binary
parts (embedded media bytes). -/
structure PptxArchive where
  parts : String → Option (List XmlEvent)
  blobs : String → Option (List Nat)

/-- `str::parse::<i64>`: optional sign then decimal digits.  Overflow (an error
in Rust) is not modelled; no claim involves 19-digit dimensions. -/
def parseI64 (s : String) : Option ℤ :=
  let (neg, r) := stripSign s.data
  if r.isEmpty ∨ ¬ r.all Char.isDigit then none
  else some (if neg then -(digitsVal r : ℤ) else (digitsVal r : ℤ))

/-- `parse_presentation`: slide size from `sldSz` (EMU → pt) and the ordered
`sldId` reference list (attributes whose full key ends in `:id` or is `r:id`). -/
def parse_presentation (events : List XmlEvent) : Size × List String :=
  let step := fun (acc : Size × List String) (e : XmlEvent) =>
    match e with
    | .start name attrs | .empty name attrs =>
        let n := localName name
        if n = "sldSz" then
          (attrs.foldl (fun (sz : Size) kv =>
            let key := localName kv.1
            if key = "cx" then
              match parseI64 kv.2 with
              | some emu => { sz with width := emu_to_pt emu }
              | none => sz
            else if key = "cy" then
              match parseI64 kv.2 with
              | some emu => { sz with height := emu_to_pt emu }
              | none => sz
            else sz) acc.1, acc.2)
        else if n = "sldId" then
          (acc.1, attrs.foldl (fun refs kv =>
            if ":id".data.isSuffixOf kv.1.data ∨ kv.1 = "r:id" then refs ++ [kv.2]
            else refs) acc.2)
        else acc
    | _ => acc
  events.foldl step (⟨960, 540⟩, [])

/-- `parse_rels`: relationship id → target map.  Assoc list searched
front-to-back; prepending on insert mirrors `HashMap::insert`. -/
def parse_rels (events : List XmlEvent) : List (String × String) :=
  events.foldl (fun m e =>
    match e with
    | .start name attrs | .empty name attrs =>
        if localName name = "Relationship" then
          let idt := attrs.foldl (fun (acc : String × String) kv =>
            let key := localName kv.1
            if key = "Id" then (kv.2, acc.2)
            else if key = "Target" then (acc.1, kv.2)
            else acc) ("", "")
          if idt.1 ≠ "" ∧ idt.2 ≠ "" then (idt.1, idt.2) :: m else m
        else m
    | _ => m) []

/-- Relationship-map lookup (`HashMap::get`). -/
def lookupRel (m : List (String × String)) (id : String) : Option String :=
  (m.find? (fun kv => kv.1 = id)).map (·.2)

/-- `parse_emu_position`: `x`/`y` attributes in EMU, defaults 0. -/
def parse_emu_position (attrs : List (String × String)) : ℚ × ℚ :=
  attrs.foldl (fun (p : ℚ × ℚ) kv =>
    let key := localName kv.1
    if key = "x" then
      match parseI64 kv.2 with
      | some emu => (emu_to_pt emu, p.2)
      | none => p
    else if key = "y" then
      match parseI64 kv.2 with
      | some emu => (p.1, emu_to_pt emu)
      | none => p
    else p) (0, 0)

/-- `parse_emu_size`: `cx`/`cy` attributes in EMU, defaults 100. -/
def parse_emu_size (attrs : List (String × String)) : ℚ × ℚ :=
  attrs.foldl (fun (p : ℚ × ℚ) kv =>
    let key := localName kv.1
    if key = "cx" then
      match parseI64 kv.2 with
      | some emu => (emu_to_pt emu, p.2)
      | none => p
    else if key = "cy" then
      match parseI64 kv.2 with
      | some emu => (p.1, emu_to_pt emu)
      | none => p
    else p) (100, 100)

/-- `parse_run_properties`: hundredths-of-a-point size, bold/italic flags. -/
def parse_run_properties (attrs : List (String × String)) (font : FontStyle) : FontStyle :=
  attrs.foldl (fun font kv =>
    let key := localName kv.1
    if key = "sz" then
      match parseF64 kv.2.data with
      | some sz => { font with size := half_pt_to_pt sz }
      | none => font
    else if key = "b" then { font with bold := kv.2 = "1" ∨ kv.2 = "true" }
    else if key = "i" then { font with italic := kv.2 = "1" ∨ kv.2 = "true" }
    else font) font

/-- `resolve_path`: resolve a relationship target against the slide directory,
handling one leading `../`. -/
def resolve_path (base_dir relative : String) : String :=
  if "../".data.isPrefixOf relative.data then
    let trimmed := (base_dir.data.reverse.dropWhile (fun c => c = '/')).reverse
    let parent :=
      match trimmed.reverse.dropWhile (fun c => c ≠ '/') with
      | [] => ([] : List Char)
      | l => l.reverse
    ⟨parent ++ relative.data.drop 3⟩
  else base_dir ++ relative

/-- State of `parse_slide`'s event loop. -/
structure SlidePassState where
  in_sp : Bool
  in_pic : Bool
  in_tx_body : Bool
  in_p : Bool
  in_r : Bool
  sp_bounds : Rect
  sp_is_text_box : Bool
  sp_shape_type : Option ShapeType
  sp_fill_color : Option Color
  sp_stroke_color : Option Color
  sp_stroke_width : Option ℚ
  text_paragraphs : List TextParagraph
  text_runs : List TextRun
  run_text : String
  run_font : FontStyle
  para_align : TextAlignment
  pic_bounds : Rect
  pic_rel_id : String
  elements : List SlideElement

/-- Initial `parse_slide` state. -/
def SlidePassState.init : SlidePassState :=
  ⟨false, false, false, false, false, Rect.mk4 0 0 100 100, false, none, none, none,
   none, [], [], "", FontStyle.dflt, .left, Rect.mk4 0 0 100 100, "", []⟩

/-- `prstGeom` preset → shape kind (unrecognized presets default to Rectangle). -/
def presetShape (val : String) : ShapeType :=
  if val = "rect" ∨ val = "roundRect" ∨ val = "snip1Rect" ∨ val = "snip2SameRect" then
    .rectangle
  else if val = "ellipse" ∨ val = "circle" then .ellipse
  else if val = "line" ∨ val = "straightConnector1" then .line
  else .rectangle

/-- The shape emitted on closing an `sp`: constructor defaults, fill replaced by
the first collected color (possibly none), stroke replaced only when a second
color was collected. -/
def emitShape (s : SlidePassState) (st : ShapeType) : ShapeElement :=
  let shape := ShapeElement.mk2 s.sp_bounds st
  let shape := { shape with fill := s.sp_fill_color.map (⟨·⟩) }
  match s.sp_stroke_color with
  | some sc => { shape with stroke := some ⟨sc, s.sp_stroke_width.getD 2⟩ }
  | none => shape

/-- One event of `parse_slide`. -/
def slidePassStep (rels : List (String × String)) (slide_dir : String)
    (archive : PptxArchive) (s : SlidePassState) (e : XmlEvent) : SlidePassState :=
  match e with
  | .start name _attrs =>
      let n := localName name
      if n = "sp" then
        { s with in_sp := true, sp_is_text_box := false, sp_shape_type := none,
                 sp_fill_color := none, sp_stroke_color := none, sp_stroke_width := none,
                 text_paragraphs := [] }
      else if n = "pic" then { s with in_pic := true, pic_rel_id := "" }
      else if n = "txBody" then
        if s.in_sp ∨ s.in_pic then { s with in_tx_body := true, text_paragraphs := [] } else s
      else if n = "p" then
        if s.in_tx_body then { s with in_p := true, text_runs := [], para_align := .left }
        else s
      else if n = "r" then
        if s.in_p then { s with in_r := true, run_text := "", run_font := FontStyle.dflt }
        else s
      else s
  | .empty name attrs =>
      let n := localName name
      if n = "off" then
        if s.in_sp ∨ s.in_pic then
          let p := parse_emu_position attrs
          if s.in_pic then
            { s with pic_bounds := { s.pic_bounds with origin := ⟨p.1, p.2⟩ } }
          else
            { s with sp_bounds := { s.sp_bounds with origin := ⟨p.1, p.2⟩ } }
        else s
      else if n = "ext" then
        if s.in_sp ∨ s.in_pic then
          let p := parse_emu_size attrs
          if s.in_pic then
            { s with pic_bounds := { s.pic_bounds with size := ⟨p.1, p.2⟩ } }
          else
            { s with sp_bounds := { s.sp_bounds with size := ⟨p.1, p.2⟩ } }
        else s
      else if n = "prstGeom" then
        if s.in_sp then
          { s with sp_shape_type := (attrs.foldl (fun acc kv =>
              if localName kv.1 = "prst" then some (presetShape kv.2) else acc)
              s.sp_shape_type) }
        else s
      else if n = "srgbClr" then
        if s.in_sp ∧ ¬ s.in_tx_body then
          attrs.foldl (fun s kv =>
            if localName kv.1 = "val" then
              let color := Color.from_hex kv.2
              if s.sp_fill_color.isNone then { s with sp_fill_color := color }
              else { s with sp_stroke_color := color }
            else s) s
        else s
      else if n = "pPr" then
        if s.in_p then
          { s with para_align := (attrs.foldl (fun acc kv =>
              if localName kv.1 = "algn" then
                if kv.2 = "ctr" then TextAlignment.center
                else if kv.2 = "r" then TextAlignment.right
                else TextAlignment.left
              else acc) s.para_align) }
        else s
      else if n = "rPr" then
        if s.in_r then { s with run_font := parse_run_properties attrs s.run_font } else s
      else if n = "latin" ∨ n = "cs" then
        if s.in_r then
          { s with run_font := (attrs.foldl (fun f kv =>
              if localName kv.1 = "typeface" then { f with family := kv.2 } else f)
              s.run_font) }
        else s
      else if n = "blipFill" ∨ n = "blip" then
        if s.in_pic then
          { s with pic_rel_id := (attrs.foldl (fun acc kv =>
              if ":embed".data.isSuffixOf kv.1.data ∨ kv.1 = "r:embed" then kv.2 else acc)
              s.pic_rel_id) }
        else s
      else s
  | .text str =>
      if s.in_r then { s with run_text := s.run_text ++ str } else s
  | .close name =>
      let n := localName name
      if n = "sp" then
        let s' := { s with in_sp := false }
        if s.text_paragraphs ≠ [] then
          if s.text_paragraphs.any (fun p => (⟨trimChars p.full_text.data⟩ : String) ≠ "") then
            { s' with text_paragraphs := [],
                      elements := s.elements ++
                        [.text { TextElement.mk2 s.sp_bounds "" with
                                   paragraphs := s.text_paragraphs,
                                   alignment := s.para_align }] }
          else
            match s.sp_shape_type with
            | some st => { s' with elements := s.elements ++ [.shape (emitShape s st)] }
            | none => s'
        else
          match s.sp_shape_type with
          | some st => { s' with elements := s.elements ++ [.shape (emitShape s st)] }
          | none => s'
      else if n = "pic" then
        let s' := { s with in_pic := false }
        if s.pic_rel_id ≠ "" then
          match lookupRel rels s.pic_rel_id with
          | some rel_target =>
              let img_path := resolve_path slide_dir rel_target
              match archive.blobs img_path with
              | some data =>
                  { s' with elements := s.elements ++
                      [.image (ImageElement.mk2 s.pic_bounds data (guess_mime img_path))] }
              | none => s'
          | none => s'
        else s'
      else if n = "txBody" then { s with in_tx_body := false }
      else if n = "p" then
        if s.in_p then
          { s with in_p := false, text_runs := [],
                   text_paragraphs := s.text_paragraphs ++ [⟨s.text_runs⟩] }
        else s
      else if n = "r" then
        if s.in_r then
          { s with in_r := false, run_text := "",
                   text_runs :=
                     if s.run_text ≠ "" then s.text_runs ++ [⟨s.run_text, s.run_font⟩]
                     else s.text_runs }
        else s
      else s
  | .decl => s

/-- `parse_slide`: fold the slide part's events; the slide directory is the
part path up to and including its last `/`. -/
def parse_slide (events : List XmlEvent) (rels : List (String × String))
    (slide_path : String) (archive : PptxArchive) : Slide :=
  let slide_dir : String :=
    match slide_path.data.reverse.dropWhile (fun c => c ≠ '/') with
    | [] => ""
    | l => ⟨l.reverse⟩
  let final := events.foldl (slidePassStep rels slide_dir archive) SlidePassState.init
  { Slide.new with elements := final.elements }

/-- `str::replace`: replace every occurrence of a pattern. -/
def replaceAll (l pat new : List Char) : List Char :=
  match l with
  | [] => []
  | c :: r =>
      if h : pat ≠ [] ∧ pat.isPrefixOf (c :: r) then
        new ++ replaceAll ((c :: r).drop pat.length) pat new
      else c :: replaceAll r pat new
termination_by l.length
decreasing_by
  · have hp : 1 ≤ pat.length := List.length_pos.mpr h.1
    simp [List.length_drop]
    omega
  · simp

/-- The body of `load_document`'s per-reference loop: resolve the relationship
id, derive the slide part path and its `_rels` sibling, and parse the part;
a missing target or part yields an empty default slide. -/
def loadSlideRef (archive : PptxArchive) (rel_map : List (String × String))
    (slide_ref : String) : Slide :=
  match lookupRel rel_map slide_ref with
  | none => Slide.new
  | some target =>
      let slide_path := "ppt/" ++ target
      let slide_rels_path : String :=
        ⟨replaceAll slide_path.data "slides/".data "slides/_rels/".data⟩ ++ ".rels"
      let slide_rel_map := parse_rels ((archive.parts slide_rels_path).getD [])
      match archive.parts slide_path with
      | none => Slide.new
      | some slideEvents => parse_slide slideEvents slide_rel_map slide_path archive

/-- `load_document` (src/format/pptx/reader.rs): returns `none` exactly when the
`io::Result` is an error (missing `ppt/presentation.xml`); every slide
reference yields exactly one slide, empty when its target or part is missing. -/
def pptx_load (archive : PptxArchive) : Option Document :=
  (archive.parts "ppt/presentation.xml").map fun presEvents =>
    let sizeRefs := parse_presentation presEvents
    let rel_map := parse_rels ((archive.parts "ppt/_rels/presentation.xml.rels").getD [])
    let slides := sizeRefs.2.map (loadSlideRef archive rel_map)
    { Document.new with
        slide_size := sizeRefs.1,
        slides := if slides = [] then [Slide.new] else slides }

/-! ## Format-A (ODP) writer (src/format/odp/writer.rs)

`build_content` is modelled as producing the event list its generated markup
parses to, interleaved with `ws` text events standing for the newline-and-
indentation between markup lines, plus the `Pictures/…` image entries.  The
writer's `xml_escape` and the reader's unescaping compose to the identity and
are absorbed by the convention that events carry unescaped text. -/

/-- Whitespace text event: the newline and indentation between markup lines. -/
def ws : XmlEvent := .text "\n"

/-- `v as u8` on a float: truncate toward zero, saturating to 0..255. -/
def f64_as_u8 (q : ℚ) : Nat := (max 0 (min 255 ⌊q⌋)).toNat

/-- `color_to_hex`: `#rrggbb` from the three channels scaled by 255. -/
def color_to_hex (c : Color) : String :=
  ⟨'#' :: (hexPair (f64_as_u8 (c.r * 255)) ++ hexPair (f64_as_u8 (c.g * 255)) ++
    hexPair (f64_as_u8 (c.b * 255)))⟩

/-- `format!("{}", v)` for an `f64`: Rust prints the shortest round-tripping
decimal.  This spelling feeds only the `fo:font-size` attribute, which no claim
inspects; the model prints integers exactly and spells other rationals as
`num/den`. -/
def fmtF64 (q : ℚ) : String :=
  let sign : List Char := if q.num < 0 then ['-'] else []
  if q.den = 1 then ⟨sign ++ decRepr q.num.natAbs⟩
  else ⟨sign ++ decRepr q.num.natAbs ++ '/' :: decRepr q.den⟩

/-- `mime_to_ext`. -/
def mime_to_ext (d : ImageData) : String :=
  if d.mime = "image/png" then "png"
  else if d.mime = "image/jpeg" then "jpg"
  else if d.mime = "image/svg+xml" then "svg"
  else if d.mime = "image/webp" then "webp"
  else "png"

/-- The synthesized `Pictures/image{N}.{ext}` path of the `N`-th embedded image. -/
def imagePath (i : Nat) (d : ImageData) : String :=
  "Pictures/image" ++ natStr i ++ "." ++ mime_to_ext d

/-- Graphic style name `gr{k}` from the sequential style counter. -/
def grStyleName (k : Nat) : String := "gr" ++ natStr k

/-- Paragraph style name `P{slide}_{para}`. -/
def paraStyleName (si pi : Nat) : String := "P" ++ natStr si ++ "_" ++ natStr pi

/-- Text-run style name `T{slide}_{para}_{run}`. -/
def runStyleName (si pi ri : Nat) : String :=
  "T" ++ natStr si ++ "_" ++ natStr pi ++ "_" ++ natStr ri

/-- The frame/shape position-and-size attributes (`draw:style-name`, `svg:x`,
`svg:y`, `svg:width`, `svg:height`). -/
def frameAttrs (styleName : String) (b : Rect) : List (String × String) :=
  [("draw:style-name", styleName), ("svg:x", format_cm b.origin.x),
   ("svg:y", format_cm b.origin.y), ("svg:width", format_cm b.size.width),
   ("svg:height", format_cm b.size.height)]

/-- ODF spelling of a paragraph alignment. -/
def alignStr : TextAlignment → String
  | .left => "start"
  | .center => "center"
  | .right => "end"

/-- Automatic-style events of one text run. -/
def runAutoEvents (si pi ri : Nat) (run : TextRun) : List XmlEvent :=
  [.start "style:style" [("style:name", runStyleName si pi ri), ("style:family", "text")], ws,
   .empty "style:text-properties"
     ([("fo:font-size", fmtF64 run.font.size ++ "pt"),
       ("fo:color", color_to_hex run.font.color),
       ("style:font-name", run.font.family)] ++
      (if run.font.bold then [("fo:font-weight", "bold")] else []) ++
      (if run.font.italic then [("fo:font-style", "italic")] else [])), ws,
   .close "style:style", ws]

/-- Automatic-style events of one paragraph (paragraph style then run styles). -/
def paraAutoEvents (si pi : Nat) (align : TextAlignment) (para : TextParagraph) :
    List XmlEvent :=
  [.start "style:style" [("style:name", paraStyleName si pi), ("style:family", "paragraph")],
   ws,
   .empty "style:paragraph-properties" [("fo:text-align", alignStr align)], ws,
   .close "style:style", ws] ++
  para.runs.enum.flatMap (fun r => runAutoEvents si pi r.1 r.2)

/-- Body events of one text run (`quick_xml` emits no text event for empty
content, hence the conditional). -/
def runBodyEvents (si pi ri : Nat) (run : TextRun) : List XmlEvent :=
  [.start "text:span" [("text:style-name", runStyleName si pi ri)]] ++
  (if run.text = "" then [] else [.text run.text]) ++
  [.close "text:span", ws]

/-- Body events of one paragraph. -/
def paraBodyEvents (si pi : Nat) (para : TextParagraph) : List XmlEvent :=
  [.start "text:p" [("text:style-name", paraStyleName si pi)], ws] ++
  para.runs.enum.flatMap (fun r => runBodyEvents si pi r.1 r.2) ++
  [.close "text:p", ws]

/-- Automatic-style events of a text frame's graphic style. -/
def textAutoEvents (k si : Nat) (t : TextElement) : List XmlEvent :=
  [.start "style:style"
     [("style:name", grStyleName k), ("style:family", "graphic"),
      ("style:parent-style-name", "standard")], ws,
   .empty "style:graphic-properties"
     [("draw:stroke", "none"), ("draw:fill", "none"),
      ("draw:textarea-vertical-align", "top"), ("fo:padding", "0cm")], ws,
   .close "style:style", ws] ++
  t.paragraphs.enum.flatMap (fun p => paraAutoEvents si p.1 t.alignment p.2)

/-- Body events of a text frame. -/
def textBodyEvents (k si : Nat) (t : TextElement) : List XmlEvent :=
  [.start "draw:frame" (frameAttrs (grStyleName k) t.bounds), ws,
   .start "draw:text-box" [], ws] ++
  t.paragraphs.enum.flatMap (fun p => paraBodyEvents si p.1 p.2) ++
  [.close "draw:text-box", ws, .close "draw:frame", ws]

/-- The `style:graphic-properties` attributes of a shape's style. -/
def shapeGraphicAttrs (sh : ShapeElement) : List (String × String) :=
  (match sh.fill with
   | some f => [("draw:fill", "solid"), ("draw:fill-color", color_to_hex f.color)]
   | none => [("draw:fill", "none")]) ++
  (match sh.stroke with
   | some st => [("draw:stroke", "solid"), ("svg:stroke-color", color_to_hex st.color),
                 ("svg:stroke-width", format_cm st.width)]
   | none => [("draw:stroke", "none")])

/-- Automatic-style events of a shape. -/
def shapeAutoEvents (k : Nat) (sh : ShapeElement) : List XmlEvent :=
  [.start "style:style" [("style:name", grStyleName k), ("style:family", "graphic")], ws,
   .empty "style:graphic-properties" (shapeGraphicAttrs sh), ws,
   .close "style:style", ws]

/-- Body events of a shape.  Lines are written as their two endpoints. -/
def shapeBodyEvents (k : Nat) (sh : ShapeElement) : List XmlEvent :=
  match sh.shape_type with
  | .rectangle => [.empty "draw:rect" (frameAttrs (grStyleName k) sh.bounds), ws]
  | .ellipse => [.empty "draw:ellipse" (frameAttrs (grStyleName k) sh.bounds), ws]
  | .line =>
      [.empty "draw:line"
        [("draw:style-name", grStyleName k),
         ("svg:x1", format_cm sh.bounds.origin.x),
         ("svg:y1", format_cm sh.bounds.origin.y),
         ("svg:x2", format_cm (sh.bounds.origin.x + sh.bounds.size.width)),
         ("svg:y2", format_cm (sh.bounds.origin.y + sh.bounds.size.height))], ws]

/-- Automatic-style events of an image frame's graphic style. -/
def imageAutoEvents (k : Nat) : List XmlEvent :=
  [.start "style:style" [("style:name", grStyleName k), ("style:family", "graphic")], ws,
   .empty "style:graphic-properties" [("draw:stroke", "none"), ("draw:fill", "none")], ws,
   .close "style:style", ws]

/-- Body events of an image frame. -/
def imageBodyEvents (k i : Nat) (img : ImageElement) : List XmlEvent :=
  [.start "draw:frame" (frameAttrs (grStyleName k) img.bounds), ws,
   .empty "draw:image"
     [("xlink:href", imagePath i img.image_data), ("xlink:type", "simple"),
      ("xlink:show", "embed"), ("xlink:actuate", "onLoad")], ws,
   .close "draw:frame", ws]

/-- How many image entries an element contributes. -/
def imgCount : SlideElement → Nat
  | .image _ => 1
  | _ => 0

/-- One element's style events, body events and image entries, given the slide
index and the current style and image counters. -/
def writeElement (si k i : Nat) :
    SlideElement → List XmlEvent × List XmlEvent × List (String × List Nat)
  | .text t => (textAutoEvents k si t, textBodyEvents k si t, [])
  | .shape sh => (shapeAutoEvents k sh, shapeBodyEvents k sh, [])
  | .image img =>
      (imageAutoEvents k, imageBodyEvents k i img,
       [(imagePath i img.image_data, img.image_data.data)])

/-- A slide's elements, threading the style and image counters. -/
def writeElements (si k i : Nat) :
    List SlideElement → List XmlEvent × List XmlEvent × List (String × List Nat)
  | [] => ([], [], [])
  | el :: rest =>
      let w := writeElement si k i el
      let r := writeElements si (k + 1) (i + imgCount el) rest
      (w.1 ++ r.1, w.2.1 ++ r.2.1, w.2.2 ++ r.2.2)

/-- The `draw:page` attributes of the slide at the given index. -/
def pageAttrs (si : Nat) : List (String × String) :=
  [("draw:name", "Slide" ++ natStr (si + 1)), ("draw:style-name", "dp1"),
   ("draw:master-page-name", "Default"),
   ("presentation:presentation-page-layout-name", "AL1T0")]

/-- All slides, threading the counters across slides. -/
def writeSlides (si k i : Nat) :
    List Slide → List XmlEvent × List XmlEvent × List (String × List Nat)
  | [] => ([], [], [])
  | sl :: rest =>
      let w := writeElements si k i sl.elements
      let r := writeSlides (si + 1) (k + sl.elements.length)
        (i + (sl.elements.map imgCount).sum) rest
      (w.1 ++ r.1,
       [.start "draw:page" (pageAttrs si), ws] ++ w.2.1 ++ [.close "draw:page", ws] ++ r.2.1,
       w.2.2 ++ r.2.2)

/-- The fixed `dp1` drawing-page style opening the automatic-styles section. -/
def dpAutoEvents : List XmlEvent :=
  [.start "style:style" [("style:name", "dp1"), ("style:family", "drawing-page")], ws,
   .empty "style:drawing-page-properties"
     [("draw:fill", "solid"), ("draw:fill-color", "#ffffff")], ws,
   .close "style:style", ws]

/-- `build_content`: the full `content.xml` event stream and the `Pictures/…`
image entries. -/
def build_content (doc : Document) : List XmlEvent × List (String × List Nat) :=
  let w := writeSlides 0 0 0 doc.slides
  ([.decl, .start "office:document-content" [("office:version", "1.2")], ws,
    .start "office:automatic-styles" [], ws] ++ dpAutoEvents ++ w.1 ++
   [.close "office:automatic-styles", ws,
    .start "office:body" [], ws, .start "office:presentation" [], ws] ++ w.2.1 ++
   [.close "office:presentation", ws, .close "office:body", ws,
    .close "office:document-content", ws], w.2.2)

/-- The container `save_document` writes, restricted to the image entries
(the XML parts are handled at the event level). -/
def odpArchive (doc : Document) : Archive :=
  fun p => ((build_content doc).2.find? (fun e => e.1 = p)).map (·.2)

/-- `(name, family)` of every `style:style` record in an event stream (used to
state the style-name uniqueness claim over the writer's real output). -/
def styleNameEntries (evs : List XmlEvent) : List (String × String) :=
  evs.filterMap fun e =>
    match e with
    | .start n attrs =>
        if localName n = "style" then some (get_attr attrs "name", get_attr attrs "family")
        else none
    | _ => none

/-! ## Claim-support definitions -/

/-- The value a coordinate takes after the write–read round trip: formatted to
four centimetre decimals, parsed back, converted to points. -/
def roundtrip_pt (v : ℚ) : ℚ := cm_to_pt (round4 (pt_to_cm v))

/-- A rectangle after its four coordinates round-trip. -/
def roundBounds (r : Rect) : Rect :=
  Rect.mk4 (roundtrip_pt r.origin.x) (roundtrip_pt r.origin.y)
    (roundtrip_pt r.size.width) (roundtrip_pt r.size.height)

/-- Two point values within the claimed 0.0001 cm formatting tolerance. -/
def cmClose (a b : ℚ) : Prop := |pt_to_cm a - pt_to_cm b| ≤ 1 / 10000

/-- Rectangles component-wise within the tolerance. -/
def rectClose (r r' : Rect) : Prop :=
  cmClose r.origin.x r'.origin.x ∧ cmClose r.origin.y r'.origin.y ∧
  cmClose r.size.width r'.size.width ∧ cmClose r.size.height r'.size.height

/-- Same Text/Image/Shape kind. -/
def sameKind : SlideElement → SlideElement → Prop
  | .text _, .text _ => True
  | .image _, .image _ => True
  | .shape _, .shape _ => True
  | _, _ => False

/-- The round-trip element relation claimed by the spec: same kind and bounds
within tolerance. -/
def elemMatches (e' e : SlideElement) : Prop := sameKind e' e ∧ rectClose e'.bounds e.bounds

/-- The round-trip slide relation: element lists match pointwise (hence have
equal length and the same kind sequence). -/
def slideMatches (s' s : Slide) : Prop := List.Forall₂ elemMatches s'.elements s.elements

/-- A text element with at least one paragraph (the writer emits an empty
text box for a paragraph-less element and the reader drops it). -/
def textParasNonempty : SlideElement → Prop
  | .text t => t.paragraphs ≠ []
  | _ => True

/-- A line whose stored size is non-negative (the reader renormalizes a line's
bounds from its endpoints). -/
def lineSizeNonneg : SlideElement → Prop
  | .shape sh => sh.shape_type = .line → 0 ≤ sh.bounds.size.width ∧ 0 ≤ sh.bounds.size.height
  | _ => True

/-- One of the four dimension endings `parse_cm` accepts (empty, `cm`, `in`,
`pt`). -/
def suffixTok (b : List Char) : Prop :=
  b = [] ∨ b = "cm".data ∨ b = "in".data ∨ b = "pt".data

/-- The spec's characterization of `parse_cm`'s domain: after trimming, a
parseable number optionally followed by a `cm`/`in`/`pt` ending. -/
def numberWithUnit (s : String) : Prop :=
  ∃ a b, trimChars s.data = a ++ b ∧ (parseF64 a).isSome ∧ suffixTok b

/-- Names of the style records the writer synthesizes in the graphic,
paragraph and text families (the claim's scope), in emission order. -/
def contentStyleNames (doc : Document) : List String :=
  (styleNameEntries (build_content doc).1).filterMap fun e =>
    if e.2 = "graphic" ∨ e.2 = "paragraph" ∨ e.2 = "text" then some e.1 else none

/-- Names of the graphic-family style records in an event stream. -/
def graphicNamesOf (evs : List XmlEvent) : List String :=
  (styleNameEntries evs).filterMap fun e =>
    if e.2 = "graphic" then some e.1 else none

/-- Names of the graphic-family style records only (one per element, from the
sequential counter). -/
def graphicStyleNames (doc : Document) : List String :=
  graphicNamesOf (build_content doc).1

/-- A start event of a `draw:page` element. -/
def isPageStart : XmlEvent → Prop
  | .start n _ => localName n = "page"
  | _ => False

/-- A `p:sldId` reference event carrying the given relationship id. -/
def sldIdEvent (id : String) : XmlEvent := .empty "p:sldId" [("r:id", id)]

/-- A presentation part listing exactly three slide references. -/
def sldIdEvents (a b c : String) : List XmlEvent := [sldIdEvent a, sldIdEvent b, sldIdEvent c]

/-- The slide-part path `pptx_load` derives for a relationship target. -/
def slidePathOf (target : String) : String := "ppt/" ++ target

/-! ### Concrete inputs for counterexamples and witnesses -/

/-- The empty byte archive. -/
def emptyArchive : Archive := fun _ => none

/-- The empty PPTX container. -/
def emptyPptx : PptxArchive := ⟨fun _ => none, fun _ => none⟩

/-- A PPTX container holding only an empty presentation part. -/
def presOnlyPptx : PptxArchive :=
  ⟨fun p => if p = "ppt/presentation.xml" then some [] else none, fun _ => none⟩

/-- A PPTX container whose presentation lists three slide references and which
holds nothing else (so every reference is unresolvable). -/
def threeRefPptx : PptxArchive :=
  ⟨fun p => if p = "ppt/presentation.xml" then some (sldIdEvents "rId1" "rId2" "rId3") else none,
   fun _ => none⟩

/-- The Format-B shape scenario of the claim: `ellipse` preset geometry and two
`srgbClr` values outside any text body, no text. -/
def c7Events : List XmlEvent :=
  [.start "p:sp" [],
   .empty "a:off" [("x", "914400"), ("y", "914400")],
   .empty "a:ext" [("cx", "914400"), ("cy", "914400")],
   .empty "a:prstGeom" [("prst", "ellipse")],
   .empty "a:srgbClr" [("val", "FF0000")],
   .empty "a:srgbClr" [("val", "00FF00")],
   .close "p:sp"]

/-- A text element with one plain paragraph. -/
def sampleText (t : String) : TextElement := TextElement.mk2 (Rect.mk4 10 20 30 40) t

/-- A document whose single slide holds two one-paragraph text elements; the
writer then names both paragraph styles `P0_0` and both run styles `T0_0_0`. -/
def twoTextDoc : Document :=
  { Document.new with
      slides := [{ Slide.new with elements := [.text (sampleText "a"), .text (sampleText "b")] }] }

/-- A text element with an empty paragraph list (constructible because the
paragraph vector is a public field). -/
def emptyTextElem : TextElement := { TextElement.mk2 (Rect.mk4 10 20 30 40) "" with paragraphs := [] }

/-- A document whose single slide holds one paragraph-less text element: the
writer emits an empty text box for it and the reader drops it. -/
def emptyTextDoc : Document :=
  { Document.new with slides := [{ Slide.new with elements := [.text emptyTextElem] }] }

/-- A two-slide document (for exercising `remove_slide`). -/
def twoSlideDoc : Document := { Document.new with slides := [Slide.new, Slide.new] }

/-- The blue of the round-trip scenario, `#3584e4`. -/
def blueColor : Color := Color.rgb (53 / 255) (132 / 255) (228 / 255)

/-- The same blue, spelled in the cast form `Color.from_hex` computes. -/
def blueParsed : Color :=
  Color.rgb (((53 : ℕ) : ℚ) / 255) (((132 : ℕ) : ℚ) / 255) (((228 : ℕ) : ℚ) / 255)

/-- A one-slide document holding a blue filled rectangle (the spec's round-trip
scenario), used to witness the round-trip theorem. -/
def blueRectDoc : Document :=
  { Document.new with
      slides := [{ Slide.new with
        elements := [.shape { ShapeElement.mk2 (Rect.mk4 100 240 340 220) .rectangle with
                                fill := some ⟨blueColor⟩ }] }] }

/-- An event the content pass ignores in any state outside spans and
paragraphs: its local name is none of the reader's trigger names (text events
are handled separately; the writer's inter-tag text is pure whitespace). -/
def neutralEvent : XmlEvent → Prop
  | .start n _ => localName n ≠ "presentation" ∧ localName n ≠ "page" ∧
      localName n ≠ "frame" ∧ localName n ≠ "text-box" ∧ localName n ≠ "p" ∧
      localName n ≠ "span"
  | .empty n _ => localName n ≠ "rect" ∧ localName n ≠ "ellipse" ∧
      localName n ≠ "line" ∧ localName n ≠ "image"
  | .close n => localName n ≠ "presentation" ∧ localName n ≠ "page" ∧
      localName n ≠ "frame" ∧ localName n ≠ "text-box" ∧ localName n ≠ "p" ∧
      localName n ≠ "span"
  | .text str => (⟨trimChars str.data⟩ : String) = ""
  | .decl => True

/-- Reader state at presentation level, between pages. -/
def bodyReady (s : ContentPassState) : Prop :=
  s.in_presentation = true ∧ s.in_page = false ∧ s.in_frame = false ∧
  s.in_text_box = false ∧ s.in_paragraph = false ∧ s.in_span = false

/-- Reader state inside a page, between elements. -/
def pageReady (s : ContentPassState) : Prop :=
  s.in_presentation = true ∧ s.in_page = true ∧ s.in_frame = false ∧
  s.in_text_box = false ∧ s.in_paragraph = false ∧ s.in_span = false

/-- What one run's body events preserve of the reader state (everything except
the run accumulator fields). -/
def runsKept (s s' : ContentPassState) : Prop :=
  s'.in_presentation = s.in_presentation ∧ s'.in_page = s.in_page ∧
  s'.in_frame = s.in_frame ∧ s'.in_text_box = s.in_text_box ∧
  s'.in_paragraph = s.in_paragraph ∧ s'.in_span = false ∧
  s'.slides = s.slides ∧ s'.current_elements = s.current_elements ∧
  s'.current_paragraphs = s.current_paragraphs ∧
  s'.current_text_align = s.current_text_align ∧
  s'.frame_bounds = s.frame_bounds

/-- What a paragraph's body events preserve of the reader state. -/
def parasKept (s s' : ContentPassState) : Prop :=
  s'.in_presentation = s.in_presentation ∧ s'.in_page = s.in_page ∧
  s'.in_frame = s.in_frame ∧ s'.in_text_box = s.in_text_box ∧
  s'.in_paragraph = false ∧ s'.in_span = false ∧
  s'.slides = s.slides ∧ s'.current_elements = s.current_elements ∧
  s'.frame_bounds = s.frame_bounds

/-- What one element's body events preserve of the reader state. -/
def elemKept (s s' : ContentPassState) : Prop :=
  s'.in_presentation = s.in_presentation ∧ s'.in_page = s.in_page ∧
  s'.in_frame = false ∧ s'.in_text_box = false ∧
  s'.in_paragraph = false ∧ s'.in_span = false ∧
  s'.slides = s.slides

/-! ## Lemmas: decimal spelling and parsing -/

theorem decDigit_isDigit (d : Nat) : (decDigit d).isDigit = true := by
  unfold decDigit
  split <;> decide

theorem decDigit_toNat (d : Nat) (h : d < 10) : (decDigit d).toNat - 48 = d := by
  interval_cases d <;> decide

theorem foldr_digits_map (l : List Nat) (h : ∀ d ∈ l, d < 10) :
    List.foldr (fun c a => a * 10 + (c.toNat - 48)) 0 (l.map decDigit) = Nat.ofDigits 10 l := by
  induction l with
  | nil => simp [Nat.ofDigits]
  | cons d t ih =>
      simp only [List.map_cons, List.foldr_cons]
      rw [ih (fun x hx => h x (List.mem_cons_of_mem _ hx)),
        decDigit_toNat d (h d (List.mem_cons_self _ _)), Nat.ofDigits_cons]
      ring

theorem digitsVal_rev_map (l : List Nat) (h : ∀ d ∈ l, d < 10) :
    digitsVal (l.reverse.map decDigit) = Nat.ofDigits 10 l := by
  unfold digitsVal
  rw [List.map_reverse, List.foldl_reverse]
  exact foldr_digits_map l h

theorem digitsVal_decRepr (n : Nat) : digitsVal (decRepr n) = n := by
  unfold decRepr
  by_cases h : n = 0
  · subst h; decide
  · simp only [h, if_false]
    rw [digitsVal_rev_map _ (fun d hd => Nat.digits_lt_base (by norm_num) hd),
      Nat.ofDigits_digits]

theorem decRepr_injective : Function.Injective decRepr := by
  intro m n h
  have := congrArg digitsVal h
  simpa [digitsVal_decRepr] using this

theorem natStr_injective : Function.Injective natStr := by
  intro m n h
  exact decRepr_injective (congrArg String.data h)

theorem decRepr_all_digits (n : Nat) : ∀ c ∈ decRepr n, c.isDigit = true := by
  unfold decRepr
  split
  · intro c hc
    simp only [List.mem_singleton] at hc
    subst hc; decide
  · intro c hc
    simp only [List.mem_map, List.mem_reverse] at hc
    obtain ⟨d, _, rfl⟩ := hc
    exact decDigit_isDigit d

theorem decRepr_ne_nil (n : Nat) : decRepr n ≠ [] := by
  unfold decRepr
  split
  · simp
  · simpa using Nat.digits_ne_nil_iff_ne_zero.mpr (by assumption)

theorem digits_len_le_of_lt (n k : Nat) (h : n < 10 ^ k) :
    (Nat.digits 10 n).length ≤ k := by
  by_cases hn : n = 0
  · subst hn; simp
  by_contra hlen
  push_neg at hlen
  have h1 : (10 : ℕ) ^ (k + 1) ≤ 10 ^ (Nat.digits 10 n).length :=
    Nat.pow_le_pow_right (by norm_num) hlen
  have h2 := Nat.base_pow_length_digits_le 10 n (by norm_num) hn
  have h3 : (10 : ℕ) ^ (k + 1) ≤ 10 * n := le_trans h1 h2
  rw [pow_succ] at h3
  have h4 : (10 : ℕ) ^ k ≤ n := by
    have := Nat.mul_le_mul_left 1 h3
    omega
  omega

theorem decRepr_len_le (n k : Nat) (hk : 1 ≤ k) (h : n < 10 ^ k) :
    (decRepr n).length ≤ k := by
  unfold decRepr
  split
  · simpa using hk
  · simpa using digits_len_le_of_lt n k h

theorem digitsVal_replicate_zero (k : Nat) (l : List Char) :
    digitsVal (List.replicate k '0' ++ l) = digitsVal l := by
  induction k with
  | zero => simp
  | succ m ih =>
      simpa [digitsVal, List.replicate_succ] using ih

theorem padZero_all_digits (w : Nat) (l : List Char) (h : ∀ c ∈ l, c.isDigit = true) :
    ∀ c ∈ padZero w l, c.isDigit = true := by
  intro c hc
  unfold padZero at hc
  rcases List.mem_append.mp hc with h0 | h1
  · rw [List.eq_of_mem_replicate h0]; decide
  · exact h c h1

theorem padZero_length (w : Nat) (l : List Char) (h : l.length ≤ w) :
    (padZero w l).length = w := by
  unfold padZero
  simp
  omega

theorem digitsVal_padZero (w : Nat) (l : List Char) :
    digitsVal (padZero w l) = digitsVal l :=
  digitsVal_replicate_zero _ l

/-! ## Lemmas: string scanning -/

theorem takeWhile_all_app (p : Char → Bool) (xs : List Char) (y : Char) (ys : List Char)
    (hxs : ∀ c ∈ xs, p c = true) (hy : p y = false) :
    (xs ++ y :: ys).takeWhile p = xs ∧ (xs ++ y :: ys).dropWhile p = y :: ys := by
  induction xs with
  | nil => simp [List.takeWhile_cons, List.dropWhile_cons, hy]
  | cons c t ih =>
      have hc : p c = true := hxs c (List.mem_cons_self _ _)
      have := ih (fun x hx => hxs x (List.mem_cons_of_mem _ hx))
      simp [List.takeWhile_cons, List.dropWhile_cons, hc, this.1, this.2]

theorem takeWhile_all (p : Char → Bool) (xs : List Char) (hxs : ∀ c ∈ xs, p c = true) :
    xs.takeWhile p = xs ∧ xs.dropWhile p = [] := by
  induction xs with
  | nil => simp
  | cons c t ih =>
      have hc : p c = true := hxs c (List.mem_cons_self _ _)
      have := ih (fun x hx => hxs x (List.mem_cons_of_mem _ hx))
      simp [List.takeWhile_cons, List.dropWhile_cons, hc, this.1, this.2]

theorem dropWhile_all_neg (p : Char → Bool) (l : List Char) (h : ∀ c ∈ l, p c = false) :
    l.dropWhile p = l := by
  cases l with
  | nil => rfl
  | cons c r => simp [List.dropWhile_cons, h c (List.mem_cons_self _ _)]

theorem trimChars_id (l : List Char) (h : ∀ c ∈ l, isWs c = false) : trimChars l = l := by
  unfold trimChars
  rw [dropWhile_all_neg _ _ h, dropWhile_all_neg, List.reverse_reverse]
  intro c hc
  exact h c (by simpa using hc)

theorem isDigit_not_ws (c : Char) (h : c.isDigit = true) : isWs c = false := by
  by_contra hw
  have hw' : isWs c = true := by simpa using hw
  unfold isWs at hw'
  simp only [decide_eq_true_eq] at hw'
  rcases hw' with rfl | rfl | rfl | rfl <;> simp at h

theorem dropEnding?_append (pre suf : List Char) :
    dropEnding? (pre ++ suf) suf = some pre := by
  unfold dropEnding?
  have hs : suf.isSuffixOf (pre ++ suf) = true := by simp [List.isSuffixOf]
  rw [hs]
  simp only [if_true]
  congr 1
  have hl : (pre ++ suf).length - suf.length = pre.length := by simp
  rw [hl, List.take_left]

theorem stripSign_digit (c : Char) (r : List Char) (hc : c.isDigit = true) :
    stripSign (c :: r) = (false, c :: r) := by
  have h1 : c ≠ '+' := by rintro rfl; simp at hc
  have h2 : c ≠ '-' := by rintro rfl; simp at hc
  simp [stripSign, h1, h2]

theorem stripSign_neg (r : List Char) : stripSign ('-' :: r) = (true, r) := by
  simp [stripSign]

theorem stripSign_digits_app (l r : List Char) (hne : l ≠ [])
    (hd : ∀ c ∈ l, c.isDigit = true) : stripSign (l ++ r) = (false, l ++ r) := by
  cases l with
  | nil => exact absurd rfl hne
  | cons c t =>
      rw [List.cons_append]
      exact stripSign_digit c _ (hd c (List.mem_cons_self _ _))

/-! ## Lemmas: parsing the formatted centimetre values back -/

theorem parseDec_format (a b : Nat) (hb : b < 10000) :
    parseDec (decRepr a ++ '.' :: padZero 4 (decRepr b)) =
      some ((a : ℚ) + (b : ℚ) / 10 ^ 4) := by
  have hpad : ∀ c ∈ padZero 4 (decRepr b), Char.isDigit c = true :=
    padZero_all_digits 4 (decRepr b) (decRepr_all_digits b)
  have hsplit := takeWhile_all_app Char.isDigit (decRepr a) '.' (padZero 4 (decRepr b))
    (decRepr_all_digits a) (by decide)
  have hpadsplit := takeWhile_all Char.isDigit (padZero 4 (decRepr b)) hpad
  have hlen : (padZero 4 (decRepr b)).length = 4 :=
    padZero_length 4 _ (decRepr_len_le b 4 (by norm_num) hb)
  unfold parseDec
  rw [hsplit.1, hsplit.2]
  simp only [List.head?_cons, List.tail_cons, if_pos rfl]
  simp only [hpadsplit.1, hpadsplit.2]
  have hne : (decRepr a).isEmpty = false := by
    cases h : decRepr a with
    | nil => exact absurd h (decRepr_ne_nil a)
    | cons c t => rfl
  simp only [hne, Bool.false_eq_true, false_and, if_false, parseExp, Option.map_some]
  rw [digitsVal_decRepr, digitsVal_padZero, digitsVal_decRepr, hlen]
  norm_num

theorem parseF64_signed_format (n : ℤ) :
    parseF64 ((if n < 0 then ['-'] else []) ++
        decRepr (n.natAbs / 10000) ++ '.' :: padZero 4 (decRepr (n.natAbs % 10000))) =
      some ((n : ℚ) / 10 ^ 4) := by
  have hmod : n.natAbs % 10000 < 10000 := Nat.mod_lt _ (by norm_num)
  have hval := parseDec_format (n.natAbs / 10000) (n.natAbs % 10000) hmod
  have habs : ((n.natAbs / 10000 : ℕ) : ℚ) + ((n.natAbs % 10000 : ℕ) : ℚ) / 10 ^ 4 =
      (n.natAbs : ℚ) / 10 ^ 4 := by
    have hdm : (10000 * (n.natAbs / 10000) + n.natAbs % 10000 : ℕ) = n.natAbs :=
      Nat.div_add_mod _ _
    have hq : (n.natAbs : ℚ) =
        10000 * ((n.natAbs / 10000 : ℕ) : ℚ) + ((n.natAbs % 10000 : ℕ) : ℚ) := by
      exact_mod_cast hdm.symm
    rw [hq]
    ring
  by_cases hn : n < 0
  · have hform : (if n < 0 then ['-'] else []) ++
        decRepr (n.natAbs / 10000) ++ '.' :: padZero 4 (decRepr (n.natAbs % 10000)) =
        '-' :: (decRepr (n.natAbs / 10000) ++ '.' :: padZero 4 (decRepr (n.natAbs % 10000))) := by
      rw [if_pos hn, List.append_assoc, List.singleton_append]
    rw [hform]
    unfold parseF64
    rw [stripSign_neg]
    simp only [hval, Option.map_some', if_true]
    rw [habs]
    have hcast : (n.natAbs : ℚ) = -(n : ℚ) := by
      rw [Int.cast_natAbs, Int.cast_abs]
      exact abs_of_neg (by exact_mod_cast hn)
    rw [hcast]
    ring_nf
  · have hform : (if n < 0 then ['-'] else []) ++
        decRepr (n.natAbs / 10000) ++ '.' :: padZero 4 (decRepr (n.natAbs % 10000)) =
        decRepr (n.natAbs / 10000) ++ '.' :: padZero 4 (decRepr (n.natAbs % 10000)) := by
      rw [if_neg hn, List.nil_append]
    rw [hform]
    unfold parseF64
    rw [stripSign_digits_app _ _ (decRepr_ne_nil _) (decRepr_all_digits _)]
    simp only [hval, Option.map_some', if_false]
    rw [habs]
    have hcast : (n.natAbs : ℚ) = (n : ℚ) := by
      rw [Int.cast_natAbs, Int.cast_abs]
      exact abs_of_nonneg (by exact_mod_cast not_lt.mp hn)
    rw [hcast]
    simp

theorem not_ws_append (l1 l2 : List Char) (h1 : ∀ c ∈ l1, isWs c = false)
    (h2 : ∀ c ∈ l2, isWs c = false) : ∀ c ∈ l1 ++ l2, isWs c = false := by
  intro c hc
  rcases List.mem_append.mp hc with hc | hc
  · exact h1 c hc
  · exact h2 c hc

theorem not_ws_digits (l : List Char) (h : ∀ c ∈ l, c.isDigit = true) :
    ∀ c ∈ l, isWs c = false := fun c hc => isDigit_not_ws c (h c hc)

/-- `parse_cm` on any string whose characters spell a whitespace-free number
followed by `cm`: strip the ending, parse, convert. -/
theorem parse_cm_of_shape (pre : List Char) (q : ℚ) (hws : ∀ c ∈ pre, isWs c = false)
    (hp : parseF64 pre = some q) (s : String) (hs : s.data = pre ++ "cm".data) :
    parse_cm s = some (cm_to_pt q) := by
  unfold parse_cm
  have hws' : ∀ c ∈ pre ++ "cm".data, isWs c = false := by
    apply not_ws_append _ _ hws
    intro c hc
    have h2 : c = 'c' ∨ c = 'm' := by simpa using hc
    rcases h2 with rfl | rfl <;> decide
  rw [hs, trimChars_id _ hws', dropEnding?_append]
  dsimp only
  rw [hp]
  rfl

theorem parse_cm_format_cm (v : ℚ) :
    parse_cm (format_cm v) = some (roundtrip_pt v) := by
  have hval : roundtrip_pt v =
      cm_to_pt ((round (pt_to_cm v * 10000) : ℚ) / 10 ^ 4) := by
    unfold roundtrip_pt round4
    norm_num
  rw [hval]
  apply parse_cm_of_shape
    ((if round (pt_to_cm v * 10000) < 0 then ['-'] else []) ++
      decRepr ((round (pt_to_cm v * 10000)).natAbs / 10000) ++
      '.' :: padZero 4 (decRepr ((round (pt_to_cm v * 10000)).natAbs % 10000)))
  · apply not_ws_append
    · apply not_ws_append
      · split
        · intro c hc
          have hc' : c = '-' := by simpa using hc
          subst hc'; decide
        · intro c hc; simp at hc
      · exact not_ws_digits _ (decRepr_all_digits _)
    · intro c hc
      rcases List.mem_cons.mp hc with rfl | hc
      · decide
      · exact isDigit_not_ws c (padZero_all_digits 4 _ (decRepr_all_digits _) c hc)
  · exact parseF64_signed_format (round (pt_to_cm v * 10000))
  · unfold format_cm
    by_cases hneg : round (pt_to_cm v * 10000) < 0 <;> simp [hneg]

/-- `pt_to_cm` undoes `cm_to_pt` exactly (the fixed ratio cancels). -/
theorem pt_cm_inverse (y : ℚ) : pt_to_cm (cm_to_pt y) = y := by
  unfold pt_to_cm cm_to_pt cmRate
  rw [mul_div_cancel_right₀ y (by norm_num : (283465 / 10000 : ℚ) ≠ 0)]

/-- The round-trip point value is within the claimed tolerance of the original
(half a final decimal digit, i.e. 1/20000 cm ≤ 1/10000 cm). -/
theorem roundtrip_pt_close (v : ℚ) : cmClose (roundtrip_pt v) v := by
  unfold cmClose roundtrip_pt round4
  rw [pt_cm_inverse]
  have h := abs_sub_round (pt_to_cm v * 10000)
  rw [show (round (pt_to_cm v * 10000) : ℚ) / 10000 - pt_to_cm v =
      -((pt_to_cm v * 10000 - (round (pt_to_cm v * 10000) : ℚ)) / 10000) by ring]
  rw [abs_neg, abs_div, show |(10000 : ℚ)| = 10000 by norm_num]
  have h2 : |pt_to_cm v * 10000 - (round (pt_to_cm v * 10000) : ℚ)| / 10000 ≤ (1 / 2) / 10000 :=
    (div_le_div_right (by norm_num)).mpr h
  linarith

/-! ## C10: `remove_slide` -/

/-- C10: `Document.remove_slide` removes and returns the slide at the given
index only when the document has more than one slide and the index is in
range; in every other case it returns `none` and leaves the slide list
completely unchanged. -/
theorem ite_nil_cons_ne_nil {α : Type} [DecidableEq α] (l : List α) (x : α) :
    (if l = [] then [x] else l) ≠ [] := by
  split
  · simp
  · assumption

theorem remove_slide_spec (d : Document) (i : Nat) :
    (1 < d.slides.length ∧ i < d.slides.length →
       ∃ sl, d.slides[i]? = some sl ∧
         d.remove_slide i = (some sl, { d with slides := d.slides.eraseIdx i }) ∧
         (d.remove_slide i).2.slides.length + 1 = d.slides.length) ∧
    (¬ (1 < d.slides.length ∧ i < d.slides.length) →
       d.remove_slide i = (none, d)) := by
  constructor
  · rintro ⟨h1, h2⟩
    refine ⟨d.slides[i], List.getElem?_eq_getElem h2, ?_, ?_⟩
    · unfold Document.remove_slide
      rw [if_pos ⟨h1, h2⟩, List.getElem?_eq_getElem h2]
    · unfold Document.remove_slide
      rw [if_pos ⟨h1, h2⟩]
      simp only [List.length_eraseIdx, h2, if_pos]
      omega
  · intro h
    unfold Document.remove_slide
    rw [if_neg h]

theorem remove_slide_spec_witness :
    ∃ sl, twoSlideDoc.slides[0]? = some sl ∧
      twoSlideDoc.remove_slide 0 =
        (some sl, { twoSlideDoc with slides := twoSlideDoc.slides.eraseIdx 0 }) ∧
      (twoSlideDoc.remove_slide 0).2.slides.length + 1 = twoSlideDoc.slides.length :=
  (remove_slide_spec twoSlideDoc 0).1 ⟨by decide, by decide⟩

/-! ## C4: at least one slide always exists -/

/-- C4: `Document.new` creates one slide; `remove_slide` never removes the last
slide; `add_slide`, `insert_slide` and `move_slide` never reduce the count; and
both readers return a `Document` whose slide list is non-empty. -/
theorem at_least_one_slide (d : Document) (i src dst : Nat) (events : List XmlEvent)
    (archive : Archive) (par : PptxArchive) (doc' : Document)
    (hd : 1 ≤ d.slides.length) (hp : pptx_load par = some doc') :
    Document.new.slides.length = 1 ∧
    1 ≤ (d.remove_slide i).2.slides.length ∧
    d.slides.length ≤ (d.add_slide).1.slides.length ∧
    d.slides.length ≤ (d.insert_slide i).1.slides.length ∧
    (d.move_slide src dst).slides.length = d.slides.length ∧
    (parse_content events archive).slides ≠ [] ∧
    doc'.slides ≠ [] := by
  refine ⟨rfl, ?_, ?_, ?_, ?_, ?_, ?_⟩
  · unfold Document.remove_slide
    split
    · next h =>
        simp only [List.length_eraseIdx, h.2, if_pos]
        omega
    · simpa using hd
  · unfold Document.add_slide
    simp
  · unfold Document.insert_slide
    simp only [List.length_append, List.length_take, List.length_cons, List.length_drop]
    omega
  · unfold Document.move_slide
    split
    · next h =>
        obtain ⟨h1, h2, _⟩ := h
        rw [List.getElem?_eq_getElem h1]
        simp only [List.length_append, List.length_take, List.length_cons,
          List.length_drop, List.length_eraseIdx, h1, if_pos]
        omega
    · rfl
  · exact ite_nil_cons_ne_nil _ _
  · unfold pptx_load at hp
    rw [Option.map_eq_some'] at hp
    obtain ⟨presEvents, _, hdoc⟩ := hp
    rw [← hdoc]
    exact ite_nil_cons_ne_nil _ _

theorem at_least_one_slide_witness :
    Document.new.slides.length = 1 ∧
    1 ≤ (Document.new.remove_slide 0).2.slides.length ∧
    Document.new.slides.length ≤ (Document.new.add_slide).1.slides.length ∧
    Document.new.slides.length ≤ (Document.new.insert_slide 0).1.slides.length ∧
    (Document.new.move_slide 0 0).slides.length = Document.new.slides.length ∧
    (parse_content [] emptyArchive).slides ≠ [] ∧
    Document.new.slides ≠ [] :=
  at_least_one_slide Document.new 0 0 0 [] emptyArchive presOnlyPptx Document.new
    (by decide) (by decide)

/-! ## C2: style resolution in `build_shape` -/

/-- C2 counterexample: a rectangle whose style name resolves to no record keeps
the constructor defaults — a blue fill and a black stroke — rather than "no
fill (respectively no stroke)" as the claim states. -/
theorem build_shape_unresolved_cex :
    (build_shape .rectangle (Rect.mk4 0 0 1 1) "missing" []).fill ≠ none ∧
    (build_shape .rectangle (Rect.mk4 0 0 1 1) "missing" []).stroke ≠ none := by
  decide

/-- C2 (amended): when the style name resolves to a record whose fill
(respectively stroke) is disabled, the shape has no fill (respectively no
stroke); when the name does not resolve at all, the shape keeps the
`ShapeElement::new` constructor defaults. -/
theorem build_shape_spec (t : ShapeType) (b : Rect) (nm nm' : String)
    (styles styles' : List (String × StyleInfo)) (si : StyleInfo)
    (hs : lookupStyle styles nm = some si)
    (hn : lookupStyle styles' nm' = none) :
    (si.has_fill = false → (build_shape t b nm styles).fill = none) ∧
    (si.has_stroke = false → (build_shape t b nm styles).stroke = none) ∧
    build_shape t b nm' styles' = ShapeElement.mk2 b t := by
  unfold build_shape
  rw [hs, hn]
  refine ⟨?_, ?_, rfl⟩ <;> intro h <;> simp [h]

theorem build_shape_spec_witness :
    ((StyleInfo.dflt.has_fill = false →
        (build_shape .ellipse (Rect.mk4 0 0 1 1) "s" [("s", StyleInfo.dflt)]).fill = none) ∧
     (StyleInfo.dflt.has_stroke = false →
        (build_shape .ellipse (Rect.mk4 0 0 1 1) "s" [("s", StyleInfo.dflt)]).stroke = none) ∧
     build_shape .ellipse (Rect.mk4 0 0 1 1) "zz" [] =
       ShapeElement.mk2 (Rect.mk4 0 0 1 1) .ellipse) :=
  build_shape_spec .ellipse (Rect.mk4 0 0 1 1) "s" "zz" [("s", StyleInfo.dflt)] []
    StyleInfo.dflt (by decide) (by decide)

/-! ## C7: the Format-B two-colour ellipse scenario -/

/-- C7: parsing a Format-B shape with preset geometry `ellipse`, two `srgbClr`
values `#FF0000` then `#00FF00` outside its text body, and no non-empty text,
yields an Ellipse whose fill is `#FF0000` and whose stroke colour is `#00FF00`. -/
theorem pptx_two_colors_ellipse :
    (parse_slide c7Events [] "ppt/slides/slide1.xml" emptyPptx).elements =
      [.shape { bounds := Rect.mk4 (emu_to_pt 914400) (emu_to_pt 914400)
                  (emu_to_pt 914400) (emu_to_pt 914400),
                rotation := 0, shape_type := .ellipse,
                fill := (Color.from_hex "FF0000").map (⟨·⟩),
                stroke := (Color.from_hex "00FF00").map (⟨·, 2⟩) }] ∧
    Color.from_hex "FF0000" = some (Color.rgb 1 0 0) ∧
    Color.from_hex "00FF00" = some (Color.rgb 0 1 0) := by
  refine ⟨by rfl, ?_, ?_⟩
  · have h : Color.from_hex "FF0000" =
        some (Color.rgb (((255 : ℕ) : ℚ) / 255) (((0 : ℕ) : ℚ) / 255) (((0 : ℕ) : ℚ) / 255)) :=
      rfl
    rw [h]
    norm_num [Color.rgb]
  · have h : Color.from_hex "00FF00" =
        some (Color.rgb (((0 : ℕ) : ℚ) / 255) (((255 : ℕ) : ℚ) / 255) (((0 : ℕ) : ℚ) / 255)) :=
      rfl
    rw [h]
    norm_num [Color.rgb]

/-! ## C9: hex colour round trip -/

theorem hexVal?_lt (c : Char) (v : Nat) (h : hexVal? c = some v) : v < 16 := by
  unfold hexVal? at h
  split_ifs at h with h1 h2 h3
  · have hb : c.toNat ≤ 57 := by
      unfold Char.isDigit at h1
      simp at h1
      exact h1.2
    simp at h
    omega
  · have hb : c.toNat ≤ 102 := h2.2
    simp at h
    omega
  · have hb : c.toNat ≤ 70 := h3.2
    simp at h
    omega

theorem hexFold_lt (b : List Char) (v : Nat) (hlen : b.length ≤ 2)
    (h : b.foldl (fun acc c => match acc, hexVal? c with
      | some a, some w => some (a * 16 + w)
      | _, _ => none) (some 0) = some v) : v < 256 := by
  match b with
  | [] =>
      simp at h
      omega
  | [c] =>
      simp only [List.foldl_cons, List.foldl_nil] at h
      cases hv : hexVal? c with
      | none => rw [hv] at h; simp at h
      | some w =>
          rw [hv] at h
          simp at h
          have := hexVal?_lt c w hv
          omega
  | [c1, c2] =>
      simp only [List.foldl_cons, List.foldl_nil] at h
      cases hv1 : hexVal? c1 with
      | none =>
          rw [hv1] at h
          cases hv2 : hexVal? c2 with
          | none => rw [hv2] at h; simp at h
          | some w2 => rw [hv2] at h; simp at h
      | some w1 =>
          rw [hv1] at h
          cases hv2 : hexVal? c2 with
          | none => rw [hv2] at h; simp at h
          | some w2 =>
              rw [hv2] at h
              simp at h
              have b1 := hexVal?_lt c1 w1 hv1
              have b2 := hexVal?_lt c2 w2 hv2
              omega
  | _ :: _ :: _ :: _ => simp at hlen

theorem parseHex_lt (l : List Char) (v : Nat) (hlen : l.length ≤ 2)
    (h : parseHex l = some v) : v < 256 := by
  simp only [parseHex] at h
  by_cases hplus : l.head? = some '+'
  · rw [if_pos hplus] at h
    by_cases hemp : l.tail.isEmpty
    · rw [if_pos hemp] at h
      simp at h
    · rw [if_neg hemp] at h
      refine hexFold_lt l.tail v ?_ h
      cases l with
      | nil => simp
      | cons c r =>
          simp only [List.tail_cons]
          simp only [List.length_cons] at hlen
          omega
  · rw [if_neg hplus] at h
    by_cases hemp : l.isEmpty
    · rw [if_pos hemp] at h
      simp at h
    · rw [if_neg hemp] at h
      exact hexFold_lt l v hlen h

theorem from_hex_some (s : String) (c : Color) (h : Color.from_hex s = some c) :
    ∃ r g b : Nat, r < 256 ∧ g < 256 ∧ b < 256 ∧
      c = Color.rgb ((r : ℚ) / 255) ((g : ℚ) / 255) ((b : ℚ) / 255) := by
  simp only [Color.from_hex] at h
  split_ifs at h with hlen
  simp only [bind, Option.bind_eq_some] at h
  obtain ⟨r, hr, h⟩ := h
  obtain ⟨g, hg, h⟩ := h
  obtain ⟨b, hb, h⟩ := h
  simp only [Option.pure_def, Option.some.injEq] at h
  refine ⟨r, g, b, ?_, ?_, ?_, h.symm⟩
  · exact parseHex_lt _ r (by simpa using List.length_take_le 2 _) hr
  · exact parseHex_lt _ g (by simpa using List.length_take_le 2 _) hg
  · exact parseHex_lt _ b (by simpa using List.length_take_le 2 _) hb

theorem f64_as_u8_channel (v : Nat) (hv : v < 256) :
    f64_as_u8 (((v : ℚ) / 255) * 255) = v := by
  unfold f64_as_u8
  have hq : ((v : ℚ) / 255) * 255 = (v : ℚ) := by
    field_simp
  rw [hq, Int.floor_natCast]
  omega

theorem decDigit_ne (d : Nat) : decDigit d ≠ '#' ∧ decDigit d ≠ '+' := by
  constructor <;> intro he <;>
    · have hd := decDigit_isDigit d
      rw [he] at hd
      exact absurd hd (by decide)

theorem hexDigit_ne (d : Nat) : hexDigit d ≠ '#' ∧ hexDigit d ≠ '+' := by
  unfold hexDigit
  split_ifs
  · exact decDigit_ne d
  all_goals exact ⟨by decide, by decide⟩

theorem hexVal?_hexDigit (d : Nat) (hd : d < 16) : hexVal? (hexDigit d) = some d := by
  interval_cases d <;> rfl

theorem parseHex_hexPair (v : Nat) (hv : v < 256) : parseHex (hexPair v) = some v := by
  have h16a : v / 16 < 16 := by omega
  have h16b : v % 16 < 16 := Nat.mod_lt _ (by norm_num)
  have hbody : (if ([hexDigit (v / 16), hexDigit (v % 16)] : List Char).head? = some '+'
      then ([hexDigit (v / 16), hexDigit (v % 16)] : List Char).tail
      else [hexDigit (v / 16), hexDigit (v % 16)]) =
      [hexDigit (v / 16), hexDigit (v % 16)] := by
    rw [if_neg]
    simp only [List.head?_cons, Option.some.injEq]
    exact (hexDigit_ne (v / 16)).2
  unfold parseHex hexPair
  rw [hbody]
  rw [if_neg (by simp)]
  simp only [List.foldl_cons, List.foldl_nil]
  rw [hexVal?_hexDigit _ h16a]
  rw [hexVal?_hexDigit _ h16b]
  simp only [Option.some.injEq]
  omega

theorem hexPair_length (v : Nat) : (hexPair v).length = 2 := rfl

/-- C9: for every valid six-hex-digit colour string, `Color::from_hex`
followed by the writer's `color_to_hex` reproduces the same three 8-bit
channel values — re-parsing the written hex string yields the same colour. -/
theorem from_hex_roundtrip (s : String) (c : Color) (h : Color.from_hex s = some c) :
    Color.from_hex (color_to_hex c) = some c := by
  obtain ⟨r, g, b, hr, hg, hb, rfl⟩ := from_hex_some s c h
  unfold color_to_hex
  have hrgb : ∀ x y z : ℚ, (Color.rgb x y z).r = x ∧ (Color.rgb x y z).g = y ∧
      (Color.rgb x y z).b = z := fun _ _ _ => ⟨rfl, rfl, rfl⟩
  rw [(hrgb _ _ _).1, (hrgb _ _ _).2.1, (hrgb _ _ _).2.2]
  rw [f64_as_u8_channel r hr, f64_as_u8_channel g hg, f64_as_u8_channel b hb]
  unfold Color.from_hex
  have hdrop : (⟨'#' :: (hexPair r ++ hexPair g ++ hexPair b)⟩ : String).data.dropWhile
      (fun c => c = '#') = hexPair r ++ hexPair g ++ hexPair b := by
    show ('#' :: (hexPair r ++ hexPair g ++ hexPair b)).dropWhile (fun c => c = '#') = _
    rw [List.dropWhile_cons_of_pos (by decide)]
    apply dropWhile_all_neg
    intro x hx
    have hx16 : ∃ d, d < 16 ∧ x = hexDigit d := by
      rcases List.mem_append.mp hx with hx | hx
      · rcases List.mem_append.mp hx with hx | hx
        · rcases List.mem_cons.mp hx with rfl | hx
          · exact ⟨r / 16, by omega, rfl⟩
          · rcases List.mem_singleton.mp hx with rfl
            exact ⟨r % 16, Nat.mod_lt _ (by norm_num), rfl⟩
        · rcases List.mem_cons.mp hx with rfl | hx
          · exact ⟨g / 16, by omega, rfl⟩
          · rcases List.mem_singleton.mp hx with rfl
            exact ⟨g % 16, Nat.mod_lt _ (by norm_num), rfl⟩
      · rcases List.mem_cons.mp hx with rfl | hx
        · exact ⟨b / 16, by omega, rfl⟩
        · rcases List.mem_singleton.mp hx with rfl
          exact ⟨b % 16, Nat.mod_lt _ (by norm_num), rfl⟩
    obtain ⟨d, _, rfl⟩ := hx16
    simpa using (hexDigit_ne d).1
  rw [hdrop]
  have hlen6 : (hexPair r ++ hexPair g ++ hexPair b).length = 6 := by
    simp [hexPair_length]
  rw [if_neg (by rw [hlen6]; trivial)]
  have htake1 : (hexPair r ++ hexPair g ++ hexPair b).take 2 = hexPair r := by
    rw [List.append_assoc, show 2 = (hexPair r).length from rfl, List.take_left]
  have hdrop1 : (hexPair r ++ hexPair g ++ hexPair b).drop 2 = hexPair g ++ hexPair b := by
    rw [List.append_assoc, show 2 = (hexPair r).length from rfl, List.drop_left]
  have htake2 : ((hexPair r ++ hexPair g ++ hexPair b).drop 2).take 2 = hexPair g := by
    rw [hdrop1, show 2 = (hexPair g).length from rfl, List.take_left]
  have htake3 : ((hexPair r ++ hexPair g ++ hexPair b).drop 4).take 2 = hexPair b := by
    rw [show (4 : ℕ) = 2 + 2 from rfl, ← List.drop_drop, hdrop1]
    rw [show (hexPair g ++ hexPair b).drop 2 = hexPair b by
      rw [show (2 : ℕ) = (hexPair g).length from rfl, List.drop_left]]
    exact List.take_of_length_le (by simp [hexPair_length])
  rw [htake1, htake2, htake3, parseHex_hexPair r hr, parseHex_hexPair g hg,
    parseHex_hexPair b hb]
  rfl

theorem from_hex_roundtrip_witness :
    Color.from_hex (color_to_hex blueParsed) = some blueParsed :=
  from_hex_roundtrip "#3584e4" blueParsed (by rfl)

/-! ## C8: totality and domain of `parse_cm` -/

theorem stripSign_snd_getLast? (l : List Char) (h : (stripSign l).2 ≠ []) :
    l.getLast? = (stripSign l).2.getLast? := by
  cases l with
  | nil => simp [stripSign] at h
  | cons c r =>
      by_cases h1 : c = '+'
      · have hs : stripSign (c :: r) = (false, r) := by simp [stripSign, h1]
        rw [hs] at h ⊢
        rw [show c :: r = [c] ++ r from rfl]
        exact List.getLast?_append_of_ne_nil _ h
      · by_cases h2 : c = '-'
        · have hs : stripSign (c :: r) = (true, r) := by simp [stripSign, h1, h2]
          rw [hs] at h ⊢
          rw [show c :: r = [c] ++ r from rfl]
          exact List.getLast?_append_of_ne_nil _ h
        · have hs : stripSign (c :: r) = (false, c :: r) := by simp [stripSign, h1, h2]
          rw [hs]

theorem mem_of_getLast?_eq {l : List Char} {c : Char} (h : l.getLast? = some c) :
    c ∈ l := by
  induction l with
  | nil => simp at h
  | cons a t ih =>
      cases t with
      | nil =>
          simp only [List.getLast?_singleton, Option.some.injEq] at h
          simp [h]
      | cons b t2 =>
          rw [show (a :: b :: t2 : List Char) = [a] ++ (b :: t2) from rfl,
            List.getLast?_append_of_ne_nil _ (by simp)] at h
          exact List.mem_cons_of_mem _ (ih h)

theorem getLast?_all_digits (d : List Char) (hne : d ≠ [])
    (hd : ∀ c ∈ d, c.isDigit = true) :
    ∃ c, d.getLast? = some c ∧ c.isDigit = true := by
  cases hd0 : d.getLast? with
  | none => exact absurd (List.getLast?_eq_none_iff.mp hd0) hne
  | some c => exact ⟨c, rfl, hd c (mem_of_getLast?_eq hd0)⟩

theorem parseExp_last (l : List Char) (e : ℤ) (h : parseExp l = some e) (hne : l ≠ []) :
    ∃ c, l.getLast? = some c ∧ c.isDigit = true := by
  cases l with
  | nil => exact absurd rfl hne
  | cons c r =>
      simp only [parseExp] at h
      split_ifs at h with hc hd hsign <;>
      · rw [not_or, not_not] at hd
        obtain ⟨hd1, hd2⟩ := hd
        have hdne : (stripSign r).2.takeWhile Char.isDigit ≠ [] := by
          intro hx
          rw [hx] at hd1
          simp at hd1
        have hrest : (stripSign r).2.dropWhile Char.isDigit = [] :=
          List.isEmpty_iff.mp hd2
        have hr' : (stripSign r).2 = (stripSign r).2.takeWhile Char.isDigit := by
          conv_lhs => rw [← List.takeWhile_append_dropWhile (p := Char.isDigit)
            (l := (stripSign r).2)]
          rw [hrest, List.append_nil]
        have hsnd_ne : (stripSign r).2 ≠ [] := by
          rw [hr']
          exact hdne
        have hr_ne : r ≠ [] := by
          intro hx
          subst hx
          simp [stripSign] at hsnd_ne
        obtain ⟨c', hc', hdig⟩ := getLast?_all_digits _ hdne
          (fun x hx => List.mem_takeWhile_imp hx)
        refine ⟨c', ?_, hdig⟩
        rw [show c :: r = [c] ++ r from rfl,
          List.getLast?_append_of_ne_nil _ hr_ne,
          stripSign_snd_getLast? r hsnd_ne, hr', hc']

theorem parseDec_last (l : List Char) (q : ℚ) (h : parseDec l = some q) :
    ∃ c, l.getLast? = some c ∧ (c.isDigit = true ∨ c = '.') := by
  unfold parseDec at h
  have hsplit : l = l.takeWhile Char.isDigit ++ l.dropWhile Char.isDigit :=
    (List.takeWhile_append_dropWhile _ _).symm
  by_cases hdot : (l.dropWhile Char.isDigit).head? = some '.'
  · rw [if_pos hdot] at h
    obtain ⟨r2, hr1⟩ : ∃ r2, l.dropWhile Char.isDigit = '.' :: r2 := by
      cases hx : l.dropWhile Char.isDigit with
      | nil => rw [hx] at hdot; simp at hdot
      | cons c1 t =>
          rw [hx] at hdot
          simp only [List.head?_cons, Option.some.injEq] at hdot
          exact ⟨t, by rw [hdot]⟩
    rw [hr1] at h
    simp only [List.tail_cons] at h
    split_ifs at h with hd12
    rw [not_and_or] at hd12
    have hr2split : r2 = r2.takeWhile Char.isDigit ++ r2.dropWhile Char.isDigit :=
      (List.takeWhile_append_dropWhile _ _).symm
    rw [Option.map_eq_some'] at h
    obtain ⟨e, he, _⟩ := h
    cases hr3 : r2.dropWhile Char.isDigit with
    | nil =>
        rw [hr3] at he
        by_cases hd2 : r2.takeWhile Char.isDigit = []
        · refine ⟨'.', ?_, Or.inr rfl⟩
          have hr2nil : r2 = [] := by
            rw [hr2split, hd2, hr3]
            rfl
          rw [hsplit, hr1, hr2nil]
          rw [List.getLast?_append_of_ne_nil _ (by simp)]
          rfl
        · obtain ⟨c, hc, hdig⟩ := getLast?_all_digits _ hd2
            (fun x hx => List.mem_takeWhile_imp hx)
          refine ⟨c, ?_, Or.inl hdig⟩
          rw [hsplit, hr1,
            List.getLast?_append_of_ne_nil _ (by simp),
            show ('.' :: r2 : List Char) = ['.'] ++ r2 from rfl]
          rw [List.getLast?_append_of_ne_nil _
              (by rw [hr2split, hr3, List.append_nil]; exact hd2),
            hr2split, hr3, List.append_nil, hc]
    | cons c3 r3t =>
        rw [hr3] at he
        obtain ⟨c, hc, hdig⟩ := parseExp_last _ _ he (by simp)
        refine ⟨c, ?_, Or.inl hdig⟩
        rw [hsplit, hr1,
          List.getLast?_append_of_ne_nil _ (by simp),
          show ('.' :: r2 : List Char) = ['.'] ++ r2 from rfl,
          List.getLast?_append_of_ne_nil _
            (by rw [hr2split, hr3]; simp),
          hr2split, hr3,
          List.getLast?_append_of_ne_nil _ (by simp), hc]
  · rw [if_neg hdot] at h
    split_ifs at h with hd1
    have hd1ne : l.takeWhile Char.isDigit ≠ [] := by
      intro hx
      rw [hx] at hd1
      simp at hd1
    rw [Option.map_eq_some'] at h
    obtain ⟨e, he, _⟩ := h
    cases hr1 : l.dropWhile Char.isDigit with
    | nil =>
        obtain ⟨c, hc, hdig⟩ := getLast?_all_digits _ hd1ne
          (fun x hx => List.mem_takeWhile_imp hx)
        refine ⟨c, ?_, Or.inl hdig⟩
        rw [hsplit, hr1, List.append_nil, hc]
    | cons c1 r2 =>
        rw [hr1] at he
        obtain ⟨c, hc, hdig⟩ := parseExp_last _ _ he (by simp)
        refine ⟨c, ?_, Or.inl hdig⟩
        rw [hsplit, hr1, List.getLast?_append_of_ne_nil _ (by simp), hc]

theorem parseF64_last (l : List Char) (q : ℚ) (h : parseF64 l = some q) :
    ∃ c, l.getLast? = some c ∧ (c.isDigit = true ∨ c = '.') := by
  unfold parseF64 at h
  rw [Option.map_eq_some'] at h
  obtain ⟨q', hq, _⟩ := h
  obtain ⟨c, hc, hcd⟩ := parseDec_last _ _ hq
  have hsnd_ne : (stripSign l).2 ≠ [] := by
    intro he
    rw [he] at hc
    simp at hc
  rw [stripSign_snd_getLast? l hsnd_ne, hc]
  exact ⟨c, rfl, hcd⟩

theorem dropEnding?_eq_some_iff (l suf v : List Char) :
    dropEnding? l suf = some v ↔ l = v ++ suf := by
  constructor
  · intro h
    unfold dropEnding? at h
    split_ifs at h with hsuf
    have hsfx : suf <:+ l := by simpa using hsuf
    obtain ⟨t, ht⟩ := hsfx
    simp only [Option.some.injEq] at h
    rw [← h, ← ht]
    have hlen : (t ++ suf).length - suf.length = t.length := by simp
    rw [hlen, List.take_left]
  · rintro rfl
    exact dropEnding?_append v suf

theorem no_ending_of_getLast (l suf : List Char) (c c' : Char)
    (hl : l.getLast? = some c) (hs : suf.getLast? = some c') (hne : c ≠ c') :
    dropEnding? l suf = none := by
  cases hx : dropEnding? l suf with
  | none => rfl
  | some v =>
      have hsome := (dropEnding?_eq_some_iff _ _ _).mp hx
      rw [hsome, List.getLast?_append_of_ne_nil _
        (by intro hnil; rw [hnil] at hs; simp at hs), hs] at hl
      exact absurd (Option.some.inj hl).symm hne

theorem parse_cm_some_iff (s : String) :
    (∃ q, parse_cm s = some q) ↔ numberWithUnit s := by
  unfold parse_cm numberWithUnit
  constructor
  · rintro ⟨q, hq⟩
    cases h1 : dropEnding? (trimChars s.data) "cm".data with
    | some v =>
        rw [h1] at hq
        obtain ⟨q0, hp, _⟩ := Option.map_eq_some'.mp hq
        exact ⟨v, "cm".data, (dropEnding?_eq_some_iff _ _ _).mp h1, by simp [hp],
          Or.inr (Or.inl rfl)⟩
    | none =>
        rw [h1] at hq
        cases h2 : dropEnding? (trimChars s.data) "in".data with
        | some v =>
            rw [h2] at hq
            obtain ⟨q0, hp, _⟩ := Option.map_eq_some'.mp hq
            exact ⟨v, "in".data, (dropEnding?_eq_some_iff _ _ _).mp h2, by simp [hp],
              Or.inr (Or.inr (Or.inl rfl))⟩
        | none =>
            rw [h2] at hq
            cases h3 : dropEnding? (trimChars s.data) "pt".data with
            | some v =>
                rw [h3] at hq
                exact ⟨v, "pt".data, (dropEnding?_eq_some_iff _ _ _).mp h3,
                  Option.isSome_iff_exists.mpr ⟨q, hq⟩,
                  Or.inr (Or.inr (Or.inr rfl))⟩
            | none =>
                rw [h3] at hq
                obtain ⟨q0, hp, _⟩ := Option.map_eq_some'.mp hq
                exact ⟨trimChars s.data, [], by simp, by simp [hp], Or.inl rfl⟩
  · rintro ⟨a, b, heq, hsome, hsuf⟩
    obtain ⟨qa, hqa⟩ := Option.isSome_iff_exists.mp hsome
    obtain ⟨c, hlast, hcd⟩ := parseF64_last a qa hqa
    have hcne : ∀ x : Char, x.isDigit = false → x ≠ '.' → c ≠ x := by
      intro x h1 h2 hcx
      subst hcx
      rcases hcd with hd | h'
      · rw [hd] at h1; exact absurd h1 (by decide)
      · exact h2 h'
    rcases hsuf with rfl | rfl | rfl | rfl
    · rw [List.append_nil] at heq
      subst heq
      rw [no_ending_of_getLast _ _ c 'm' hlast (by rfl) (hcne 'm' (by decide) (by decide)),
        no_ending_of_getLast _ _ c 'n' hlast (by rfl) (hcne 'n' (by decide) (by decide)),
        no_ending_of_getLast _ _ c 't' hlast (by rfl) (hcne 't' (by decide) (by decide))]
      exact ⟨cm_to_pt qa, by dsimp only; rw [hqa]; rfl⟩
    · rw [(dropEnding?_eq_some_iff _ _ _).mpr heq]
      exact ⟨cm_to_pt qa, by dsimp only; rw [hqa]; rfl⟩
    · have hlastin : (trimChars s.data).getLast? = some 'n' := by
        rw [heq, List.getLast?_append_of_ne_nil _ (by simp)]
        rfl
      rw [no_ending_of_getLast _ _ 'n' 'm' hlastin (by rfl) (by decide),
        (dropEnding?_eq_some_iff _ _ _).mpr heq]
      exact ⟨qa * 72, by dsimp only; rw [hqa]; rfl⟩
    · have hlastpt : (trimChars s.data).getLast? = some 't' := by
        rw [heq, List.getLast?_append_of_ne_nil _ (by simp)]
        rfl
      rw [no_ending_of_getLast _ _ 't' 'm' hlastpt (by rfl) (by decide),
        no_ending_of_getLast _ _ 't' 'n' hlastpt (by rfl) (by decide),
        (dropEnding?_eq_some_iff _ _ _).mpr heq]
      exact ⟨qa, by dsimp only; rw [hqa]⟩

/-- C8: `parse_cm` is total by construction in this model (every operation it
performs is a total function), and it returns `none` exactly when the trimmed
input is not a parseable number optionally followed by a `cm`, `in`, or `pt`
ending. -/
theorem parse_cm_none_iff (s : String) :
    parse_cm s = none ↔ ¬ numberWithUnit s := by
  rw [← parse_cm_some_iff]
  cases h : parse_cm s with
  | none => simp [h]
  | some q => simp [h]

set_option maxHeartbeats 1000000 in
theorem contentPassStep_no_page (styles : List (String × StyleInfo)) (archive : Archive)
    (s : ContentPassState) (e : XmlEvent) (hne : ¬ isPageStart e)
    (hp : s.in_page = false) :
    (contentPassStep styles archive s e).in_page = false ∧
      (contentPassStep styles archive s e).slides = s.slides := by
  cases e with
  | decl => exact ⟨hp, rfl⟩
  | text str =>
      unfold contentPassStep
      dsimp only
      split_ifs <;> exact ⟨hp, rfl⟩
  | start name attrs =>
      have hn : ¬ localName name = "page" := by simpa [isPageStart] using hne
      unfold contentPassStep
      dsimp only
      simp only [if_neg hn]
      split_ifs <;> exact ⟨hp, rfl⟩
  | empty name attrs =>
      unfold contentPassStep
      dsimp only
      split_ifs <;>
        first
          | exact ⟨hp, rfl⟩
          | (cases archive (get_attr attrs "href") <;>
              first | exact ⟨hp, rfl⟩ | exact ⟨rfl, rfl⟩)
          | simp_all
  | close name =>
      unfold contentPassStep
      dsimp only
      split_ifs <;> first | exact ⟨hp, rfl⟩ | simp_all

theorem foldl_no_page (styles : List (String × StyleInfo)) (archive : Archive)
    (events : List XmlEvent) (hne : ∀ e ∈ events, ¬ isPageStart e)
    (s : ContentPassState) (hp : s.in_page = false) :
    (events.foldl (contentPassStep styles archive) s).in_page = false ∧
      (events.foldl (contentPassStep styles archive) s).slides = s.slides := by
  induction events generalizing s with
  | nil => exact ⟨hp, rfl⟩
  | cons e rest ih =>
      have h1 := contentPassStep_no_page styles archive s e (hne e (by simp)) hp
      have h2 := ih (fun x hx => hne x (by simp [hx])) _ h1.1
      exact ⟨h2.1, h2.2.trans h1.2⟩

/-- C5: loading a Format-A content part containing zero `draw:page` start
elements returns a Document with exactly one slide, and that slide has zero
elements. -/
theorem no_pages_one_empty_slide (events : List XmlEvent) (archive : Archive)
    (hne : ∀ e ∈ events, ¬ isPageStart e) :
    (parse_content events archive).slides.length = 1 ∧
      ∀ sl ∈ (parse_content events archive).slides, sl.elements = [] := by
  have h := foldl_no_page (events.foldl stylePassStep StylePassState.init).styles
    archive events hne ContentPassState.init rfl
  have h2 : (events.foldl
      (contentPassStep (events.foldl stylePassStep StylePassState.init).styles archive)
      ContentPassState.init).slides = ([] : List Slide) := h.2
  simp only [parse_content]
  rw [h2]
  simp only [if_true, if_pos]
  refine ⟨rfl, ?_⟩
  intro sl hsl
  simp only [List.mem_singleton] at hsl
  subst hsl
  rfl

theorem no_pages_one_empty_slide_witness :
    (∀ e ∈ [XmlEvent.decl, .start "office:document-content" [],
              .close "office:document-content"], ¬ isPageStart e) ∧
      ((parse_content [XmlEvent.decl, .start "office:document-content" [],
          .close "office:document-content"] emptyArchive).slides.length = 1 ∧
        ∀ sl ∈ (parse_content [XmlEvent.decl, .start "office:document-content" [],
            .close "office:document-content"] emptyArchive).slides, sl.elements = []) :=
  ⟨by intro e he; fin_cases he <;> simp [isPageStart, localName, localChars],
   no_pages_one_empty_slide _ emptyArchive
     (by intro e he; fin_cases he <;> simp [isPageStart, localName, localChars])⟩

theorem parse_presentation_sldIds (a b c : String) :
    parse_presentation (sldIdEvents a b c) = (⟨960, 540⟩, [a, b, c]) := rfl

theorem loadSlideRef_missing (archive : PptxArchive) (rel_map : List (String × String))
    (b : String)
    (h : lookupRel rel_map b = none ∨
      ∀ target, lookupRel rel_map b = some target →
        archive.parts ("ppt/" ++ target) = none) :
    loadSlideRef archive rel_map b = Slide.new := by
  unfold loadSlideRef
  rcases h with h | h
  · rw [h]
  · cases hl : lookupRel rel_map b with
    | none => rfl
    | some target =>
        dsimp only
        rw [h target hl]

/-- C6: a Format-B presentation listing three slide references, where the second
reference's relationship target is missing from the relationship map or the
referenced slide part is absent from the container, still loads as a
three-slide Document whose second slide has zero elements. -/
theorem pptx_missing_second_slide (archive : PptxArchive) (a b c : String)
    (hpres : archive.parts "ppt/presentation.xml" = some (sldIdEvents a b c))
    (hmiss :
      lookupRel (parse_rels ((archive.parts "ppt/_rels/presentation.xml.rels").getD []))
          b = none ∨
        ∀ target,
          lookupRel (parse_rels ((archive.parts "ppt/_rels/presentation.xml.rels").getD []))
              b = some target → archive.parts ("ppt/" ++ target) = none) :
    ∃ d, pptx_load archive = some d ∧ d.slides.length = 3 ∧
      ∃ s2, d.slides[1]? = some s2 ∧ s2.elements = [] := by
  have hb := loadSlideRef_missing archive
    (parse_rels ((archive.parts "ppt/_rels/presentation.xml.rels").getD [])) b hmiss
  simp only [pptx_load, hpres, Option.map_some', parse_presentation_sldIds,
    List.map_cons, List.map_nil]
  refine ⟨_, rfl, ?_, Slide.new, ?_, rfl⟩
  · simp
  · simp [hb]

theorem pptx_missing_second_slide_witness :
    (threeRefPptx.parts "ppt/presentation.xml" = some (sldIdEvents "rId1" "rId2" "rId3")) ∧
    (lookupRel (parse_rels ((threeRefPptx.parts "ppt/_rels/presentation.xml.rels").getD []))
        "rId2" = none) ∧
    (∃ d, pptx_load threeRefPptx = some d ∧ d.slides.length = 3 ∧
      ∃ s2, d.slides[1]? = some s2 ∧ s2.elements = []) :=
  ⟨rfl, rfl,
   pptx_missing_second_slide threeRefPptx "rId1" "rId2" "rId3" rfl (Or.inl rfl)⟩

theorem contentStyleNames_twoTextDoc :
    contentStyleNames twoTextDoc =
      [grStyleName 0, paraStyleName 0 0, runStyleName 0 0 0,
       grStyleName 1, paraStyleName 0 0, runStyleName 0 0 0] := rfl

/-- C3 counterexample: a slide holding two one-paragraph text elements makes the
writer emit the paragraph style name `P0_0` and the run style name `T0_0_0`
twice each, so the synthesized content style names are not pairwise distinct. -/
theorem content_style_names_collide :
    ¬ (contentStyleNames twoTextDoc).Nodup := by
  rw [contentStyleNames_twoTextDoc]
  intro h
  have h2 := List.nodup_cons.mp h
  have h3 := List.nodup_cons.mp h2.2
  exact h3.1 (by simp)

theorem styleNameEntries_append (a b : List XmlEvent) :
    styleNameEntries (a ++ b) = styleNameEntries a ++ styleNameEntries b :=
  List.filterMap_append a b _

theorem graphicNamesOf_append (a b : List XmlEvent) :
    graphicNamesOf (a ++ b) = graphicNamesOf a ++ graphicNamesOf b := by
  unfold graphicNamesOf
  rw [styleNameEntries_append, List.filterMap_append]

theorem graphicNamesOf_flatMap_nil {α : Type} (f : α → List XmlEvent) (l : List α)
    (h : ∀ x ∈ l, graphicNamesOf (f x) = []) : graphicNamesOf (l.flatMap f) = [] := by
  induction l with
  | nil => rfl
  | cons x r ih =>
      rw [List.flatMap_cons, graphicNamesOf_append, h x (by simp),
        ih (fun y hy => h y (by simp [hy]))]
      rfl

theorem graphicNamesOf_runAuto (si pi ri : Nat) (run : TextRun) :
    graphicNamesOf (runAutoEvents si pi ri run) = [] := rfl

theorem graphicNamesOf_paraAuto (si pi : Nat) (align : TextAlignment)
    (para : TextParagraph) :
    graphicNamesOf (paraAutoEvents si pi align para) = [] := by
  unfold paraAutoEvents
  rw [graphicNamesOf_append,
    graphicNamesOf_flatMap_nil (fun r => runAutoEvents si pi r.1 r.2) para.runs.enum
      (fun r _ => graphicNamesOf_runAuto si pi r.1 r.2)]
  rfl

set_option maxHeartbeats 1600000 in
theorem graphicNamesOf_textAuto (k si : Nat) (t : TextElement) :
    graphicNamesOf (textAutoEvents k si t) = [grStyleName k] := by
  unfold textAutoEvents
  rw [graphicNamesOf_append]
  have hf : graphicNamesOf
      (t.paragraphs.enum.flatMap fun p => paraAutoEvents si p.1 t.alignment p.2) = [] :=
    graphicNamesOf_flatMap_nil _ _ (fun p _ => graphicNamesOf_paraAuto si p.1 t.alignment p.2)
  rw [hf]
  rfl

theorem graphicNamesOf_shapeAuto (k : Nat) (sh : ShapeElement) :
    graphicNamesOf (shapeAutoEvents k sh) = [grStyleName k] := rfl

theorem graphicNamesOf_runBody (si pi ri : Nat) (run : TextRun) :
    graphicNamesOf (runBodyEvents si pi ri run) = [] := by
  unfold runBodyEvents
  rw [graphicNamesOf_append, graphicNamesOf_append]
  split_ifs <;> rfl

theorem graphicNamesOf_paraBody (si pi : Nat) (para : TextParagraph) :
    graphicNamesOf (paraBodyEvents si pi para) = [] := by
  unfold paraBodyEvents
  rw [graphicNamesOf_append, graphicNamesOf_append,
    graphicNamesOf_flatMap_nil (fun r => runBodyEvents si pi r.1 r.2) para.runs.enum
      (fun r _ => graphicNamesOf_runBody si pi r.1 r.2)]
  rfl

set_option maxHeartbeats 1600000 in
theorem graphicNamesOf_textBody (k si : Nat) (t : TextElement) :
    graphicNamesOf (textBodyEvents k si t) = [] := by
  unfold textBodyEvents
  rw [graphicNamesOf_append, graphicNamesOf_append]
  have hf : graphicNamesOf
      (t.paragraphs.enum.flatMap fun p => paraBodyEvents si p.1 p.2) = [] :=
    graphicNamesOf_flatMap_nil _ _ (fun p _ => graphicNamesOf_paraBody si p.1 p.2)
  rw [hf]
  rfl

theorem graphicNamesOf_shapeBody (k : Nat) (sh : ShapeElement) :
    graphicNamesOf (shapeBodyEvents k sh) = [] := by
  unfold shapeBodyEvents
  cases sh.shape_type <;> rfl

theorem graphicNamesOf_writeElement_auto (si k i : Nat) (el : SlideElement) :
    graphicNamesOf (writeElement si k i el).1 = [grStyleName k] := by
  cases el with
  | text t => exact graphicNamesOf_textAuto k si t
  | shape sh => exact graphicNamesOf_shapeAuto k sh
  | image img => rfl

theorem graphicNamesOf_writeElement_body (si k i : Nat) (el : SlideElement) :
    graphicNamesOf (writeElement si k i el).2.1 = [] := by
  cases el with
  | text t => exact graphicNamesOf_textBody k si t
  | shape sh => exact graphicNamesOf_shapeBody k sh
  | image img => rfl

theorem graphicNamesOf_writeElements_auto (si : Nat) (els : List SlideElement) :
    ∀ k i, graphicNamesOf (writeElements si k i els).1 =
      (List.range' k els.length).map grStyleName := by
  induction els with
  | nil => intro k i; rfl
  | cons el rest ih =>
      intro k i
      unfold writeElements
      dsimp only
      rw [graphicNamesOf_append, graphicNamesOf_writeElement_auto, ih]
      rfl

theorem graphicNamesOf_writeElements_body (si : Nat) (els : List SlideElement) :
    ∀ k i, graphicNamesOf (writeElements si k i els).2.1 = [] := by
  induction els with
  | nil => intro k i; rfl
  | cons el rest ih =>
      intro k i
      unfold writeElements
      dsimp only
      rw [graphicNamesOf_append, graphicNamesOf_writeElement_body, ih]
      rfl

theorem range1_append (s m n : Nat) :
    List.range' s m ++ List.range' (s + m) n = List.range' s (m + n) := by
  induction m generalizing s with
  | zero => simp
  | succ m ih =>
      rw [show m + 1 + n = (m + n) + 1 by omega]
      show s :: (List.range' (s+1) m ++ List.range' (s + (m+1)) n) =
        s :: List.range' (s+1) (m+n)
      rw [show s + (m + 1) = (s + 1) + m by omega, ih]

theorem graphicNamesOf_writeSlides_auto (sls : List Slide) :
    ∀ si k i, graphicNamesOf (writeSlides si k i sls).1 =
      (List.range' k ((sls.map (fun s => s.elements.length)).sum)).map grStyleName := by
  induction sls with
  | nil => intro si k i; rfl
  | cons sl rest ih =>
      intro si k i
      unfold writeSlides
      dsimp only
      rw [graphicNamesOf_append, graphicNamesOf_writeElements_auto, ih, ← List.map_append,
        range1_append]
      rfl

theorem graphicNamesOf_writeSlides_body (sls : List Slide) :
    ∀ si k i, graphicNamesOf (writeSlides si k i sls).2.1 = [] := by
  induction sls with
  | nil => intro si k i; rfl
  | cons sl rest ih =>
      intro si k i
      unfold writeSlides
      dsimp only
      rw [graphicNamesOf_append, graphicNamesOf_append, graphicNamesOf_append,
        graphicNamesOf_writeElements_body, ih]
      rfl

theorem graphicStyleNames_eq (doc : Document) :
    graphicStyleNames doc =
      (List.range' 0 ((doc.slides.map (fun s => s.elements.length)).sum)).map grStyleName := by
  show graphicNamesOf (build_content doc).1 = _
  unfold build_content
  dsimp only
  rw [graphicNamesOf_append, graphicNamesOf_append, graphicNamesOf_append,
    graphicNamesOf_append, graphicNamesOf_append,
    graphicNamesOf_writeSlides_auto, graphicNamesOf_writeSlides_body]
  show (((([] ++ []) ++
      (List.range' 0 ((doc.slides.map (fun s => s.elements.length)).sum)).map grStyleName) ++
      ([] : List String)) ++ []) ++ [] =
    (List.range' 0 ((doc.slides.map (fun s => s.elements.length)).sum)).map grStyleName
  simp

theorem grStyleName_injective : Function.Injective grStyleName := by
  intro m n h
  have h2 := congrArg String.data h
  have h3 : decRepr m = decRepr n := by
    simpa [grStyleName, natStr] using h2
  exact decRepr_injective h3

/-- C3 (amended): the `gr{N}` graphic style names, which are the ones drawn from
the sequential style counter, are pairwise distinct for every Document; the
paragraph (`P{slide}_{para}`) and run (`T{slide}_{para}_{run}`) style names are
derived from per-slide indices instead and can repeat across elements. -/
theorem graphic_style_names_unique (doc : Document) :
    (graphicStyleNames doc).Nodup := by
  rw [graphicStyleNames_eq]
  exact List.Nodup.map grStyleName_injective (List.nodup_range' _ _)

theorem step_text_ws (styles : List (String × StyleInfo)) (A : Archive)
    (s : ContentPassState) (str : String) (hspan : s.in_span = false)
    (hws : (⟨trimChars str.data⟩ : String) = "") :
    contentPassStep styles A s (.text str) = s := by
  unfold contentPassStep
  rw [hspan]
  simp [hws]

theorem step_neutral (styles : List (String × StyleInfo)) (A : Archive)
    (s : ContentPassState) (e : XmlEvent) (hn : neutralEvent e)
    (hspan : s.in_span = false) :
    contentPassStep styles A s e = s := by
  cases e with
  | decl => rfl
  | text str => exact step_text_ws styles A s str hspan hn
  | start n attrs =>
      obtain ⟨h1, h2, h3, h4, h5, h6⟩ := hn
      unfold contentPassStep
      dsimp only
      rw [if_neg h1, if_neg h2, if_neg h3, if_neg h4, if_neg h5, if_neg h6]
  | empty n attrs =>
      obtain ⟨h1, h2, h3, h4⟩ := hn
      unfold contentPassStep
      dsimp only
      rw [if_neg h1, if_neg h2, if_neg h3, if_neg h4]
  | close n =>
      obtain ⟨h1, h2, h3, h4, h5, h6⟩ := hn
      unfold contentPassStep
      dsimp only
      rw [if_neg h1, if_neg h2, if_neg h3, if_neg h4, if_neg h5, if_neg h6]

theorem foldl_neutral (styles : List (String × StyleInfo)) (A : Archive)
    (l : List XmlEvent) (h : ∀ e ∈ l, neutralEvent e) (s : ContentPassState)
    (hspan : s.in_span = false) :
    List.foldl (contentPassStep styles A) s l = s := by
  induction l with
  | nil => rfl
  | cons e r ih =>
      rw [List.foldl_cons, step_neutral styles A s e (h e (by simp)) hspan]
      exact ih (fun x hx => h x (by simp [hx]))

instance neutralEvent.decidable (e : XmlEvent) : Decidable (neutralEvent e) :=
  match e with
  | .start _ _ => And.decidable
  | .empty _ _ => And.decidable
  | .close _ => And.decidable
  | .text s => String.decEq _ _
  | .decl => Decidable.isTrue trivial

theorem neutral_ws : neutralEvent ws := by decide

theorem neutral_append (a b : List XmlEvent) (ha : ∀ e ∈ a, neutralEvent e)
    (hb : ∀ e ∈ b, neutralEvent e) : ∀ e ∈ a ++ b, neutralEvent e := by
  intro e he
  rcases List.mem_append.mp he with h | h
  · exact ha e h
  · exact hb e h

theorem neutral_flatMap {α : Type} (f : α → List XmlEvent) (l : List α)
    (h : ∀ x ∈ l, ∀ e ∈ f x, neutralEvent e) : ∀ e ∈ l.flatMap f, neutralEvent e := by
  intro e he
  obtain ⟨x, hx, hex⟩ := List.mem_flatMap.mp he
  exact h x hx e hex

theorem neutral_runAuto (si pi ri : Nat) (run : TextRun) :
    ∀ e ∈ runAutoEvents si pi ri run, neutralEvent e := by
  intro e he
  fin_cases he <;>
    first
      | decide
      | exact ⟨by decide, by decide, by decide, by decide, by decide, by decide⟩
      | exact ⟨by decide, by decide, by decide, by decide⟩

theorem neutral_paraAuto (si pi : Nat) (align : TextAlignment) (para : TextParagraph) :
    ∀ e ∈ paraAutoEvents si pi align para, neutralEvent e := by
  unfold paraAutoEvents
  apply neutral_append
  · intro e he
    fin_cases he <;>
    first
      | decide
      | exact ⟨by decide, by decide, by decide, by decide, by decide, by decide⟩
      | exact ⟨by decide, by decide, by decide, by decide⟩
  · exact neutral_flatMap _ _ (fun r _ => neutral_runAuto si pi r.1 r.2)

theorem neutral_textAuto (k si : Nat) (t : TextElement) :
    ∀ e ∈ textAutoEvents k si t, neutralEvent e := by
  unfold textAutoEvents
  apply neutral_append
  · intro e he
    fin_cases he <;>
    first
      | decide
      | exact ⟨by decide, by decide, by decide, by decide, by decide, by decide⟩
      | exact ⟨by decide, by decide, by decide, by decide⟩
  · exact neutral_flatMap _ _ (fun p _ => neutral_paraAuto si p.1 t.alignment p.2)

theorem neutral_shapeAuto (k : Nat) (sh : ShapeElement) :
    ∀ e ∈ shapeAutoEvents k sh, neutralEvent e := by
  intro e he
  fin_cases he <;>
    first
      | decide
      | exact ⟨by decide, by decide, by decide, by decide, by decide, by decide⟩
      | exact ⟨by decide, by decide, by decide, by decide⟩

theorem neutral_imageAuto (k : Nat) :
    ∀ e ∈ imageAutoEvents k, neutralEvent e := by
  intro e he
  fin_cases he <;>
    first
      | decide
      | exact ⟨by decide, by decide, by decide, by decide, by decide, by decide⟩
      | exact ⟨by decide, by decide, by decide, by decide⟩

theorem neutral_writeElement (si k i : Nat) (el : SlideElement) :
    ∀ e ∈ (writeElement si k i el).1, neutralEvent e := by
  cases el with
  | text t => exact neutral_textAuto k si t
  | shape sh => exact neutral_shapeAuto k sh
  | image img => exact neutral_imageAuto k

theorem neutral_writeElements (si : Nat) (els : List SlideElement) :
    ∀ k i, ∀ e ∈ (writeElements si k i els).1, neutralEvent e := by
  induction els with
  | nil => intro k i e he; simp [writeElements] at he
  | cons el rest ih =>
      intro k i
      unfold writeElements
      dsimp only
      exact neutral_append _ _ (neutral_writeElement si k i el) (ih (k+1) (i + imgCount el))

theorem neutral_writeSlides (sls : List Slide) :
    ∀ si k i, ∀ e ∈ (writeSlides si k i sls).1, neutralEvent e := by
  induction sls with
  | nil => intro si k i e he; simp [writeSlides] at he
  | cons sl rest ih =>
      intro si k i
      unfold writeSlides
      dsimp only
      exact neutral_append _ _ (neutral_writeElements si sl.elements k i)
        (ih (si+1) (k + sl.elements.length) (i + (sl.elements.map imgCount).sum))

theorem neutral_dpAuto : ∀ e ∈ dpAutoEvents, neutralEvent e := by
  intro e he
  fin_cases he <;> decide

theorem step_start_presentation (styles : List (String × StyleInfo)) (A : Archive)
    (s : ContentPassState) (attrs : List (String × String)) :
    contentPassStep styles A s (.start "office:presentation" attrs) =
      { s with in_presentation := true } := by
  unfold contentPassStep
  dsimp only
  rw [if_pos (by decide : localName "office:presentation" = "presentation")]

theorem step_close_presentation (styles : List (String × StyleInfo)) (A : Archive)
    (s : ContentPassState) :
    contentPassStep styles A s (.close "office:presentation") =
      { s with in_presentation := false } := by
  unfold contentPassStep
  dsimp only
  rw [if_pos (by decide : localName "office:presentation" = "presentation")]

theorem step_start_page (styles : List (String × StyleInfo)) (A : Archive)
    (s : ContentPassState) (attrs : List (String × String))
    (h : s.in_presentation = true) :
    contentPassStep styles A s (.start "draw:page" attrs) =
      { s with in_page := true, current_elements := [] } := by
  unfold contentPassStep
  dsimp only
  rw [if_neg (by decide : ¬ localName "draw:page" = "presentation"),
    if_pos (by decide : localName "draw:page" = "page"), if_pos h]

theorem step_close_page (styles : List (String × StyleInfo)) (A : Archive)
    (s : ContentPassState) (h : s.in_page = true) :
    contentPassStep styles A s (.close "draw:page") =
      { s with in_page := false, current_elements := [],
               slides := s.slides ++ [{ Slide.new with elements := s.current_elements }] } := by
  unfold contentPassStep
  dsimp only
  rw [if_neg (by decide : ¬ localName "draw:page" = "presentation"),
    if_pos (by decide : localName "draw:page" = "page"), if_pos h]

theorem step_start_frame (styles : List (String × StyleInfo)) (A : Archive)
    (s : ContentPassState) (attrs : List (String × String)) (h : s.in_page = true) :
    contentPassStep styles A s (.start "draw:frame" attrs) =
      { s with in_frame := true, frame_bounds := parse_bounds attrs } := by
  unfold contentPassStep
  dsimp only
  rw [if_neg (by decide : ¬ localName "draw:frame" = "presentation"),
    if_neg (by decide : ¬ localName "draw:frame" = "page"),
    if_pos (by decide : localName "draw:frame" = "frame"), if_pos h]

theorem step_close_frame (styles : List (String × StyleInfo)) (A : Archive)
    (s : ContentPassState) (h : s.in_frame = true) :
    contentPassStep styles A s (.close "draw:frame") = { s with in_frame := false } := by
  unfold contentPassStep
  dsimp only
  rw [if_neg (by decide : ¬ localName "draw:frame" = "presentation"),
    if_neg (by decide : ¬ localName "draw:frame" = "page"),
    if_pos (by decide : localName "draw:frame" = "frame"), if_pos h]

theorem step_close_frame_off (styles : List (String × StyleInfo)) (A : Archive)
    (s : ContentPassState) (h : s.in_frame = false) :
    contentPassStep styles A s (.close "draw:frame") = s := by
  unfold contentPassStep
  dsimp only
  rw [if_neg (by decide : ¬ localName "draw:frame" = "presentation"),
    if_neg (by decide : ¬ localName "draw:frame" = "page"),
    if_pos (by decide : localName "draw:frame" = "frame"), if_neg (by rw [h]; decide)]

theorem step_start_textbox (styles : List (String × StyleInfo)) (A : Archive)
    (s : ContentPassState) (attrs : List (String × String)) (h : s.in_frame = true) :
    contentPassStep styles A s (.start "draw:text-box" attrs) =
      { s with in_text_box := true, current_paragraphs := [] } := by
  unfold contentPassStep
  dsimp only
  rw [if_neg (by decide : ¬ localName "draw:text-box" = "presentation"),
    if_neg (by decide : ¬ localName "draw:text-box" = "page"),
    if_neg (by decide : ¬ localName "draw:text-box" = "frame"),
    if_pos (by decide : localName "draw:text-box" = "text-box"), if_pos h]

theorem step_close_textbox (styles : List (String × StyleInfo)) (A : Archive)
    (s : ContentPassState) (h : s.in_text_box = true) :
    contentPassStep styles A s (.close "draw:text-box") =
      { s with in_text_box := false, current_paragraphs := [],
               current_elements :=
                 if s.current_paragraphs ≠ [] then
                   s.current_elements ++
                     [.text { TextElement.mk2 s.frame_bounds "" with
                                paragraphs := s.current_paragraphs,
                                alignment := s.current_text_align }]
                 else s.current_elements } := by
  unfold contentPassStep
  dsimp only
  rw [if_neg (by decide : ¬ localName "draw:text-box" = "presentation"),
    if_neg (by decide : ¬ localName "draw:text-box" = "page"),
    if_neg (by decide : ¬ localName "draw:text-box" = "frame"),
    if_pos (by decide : localName "draw:text-box" = "text-box"), if_pos h]

theorem step_start_p (styles : List (String × StyleInfo)) (A : Archive)
    (s : ContentPassState) (attrs : List (String × String)) (h : s.in_text_box = true) :
    contentPassStep styles A s (.start "text:p" attrs) =
      { s with in_paragraph := true, current_runs := [],
               current_text_align :=
                 ((lookupStyle styles (get_attr attrs "style-name")).bind
                   (·.text_align)).getD .left } := by
  unfold contentPassStep
  dsimp only
  rw [if_neg (by decide : ¬ localName "text:p" = "presentation"),
    if_neg (by decide : ¬ localName "text:p" = "page"),
    if_neg (by decide : ¬ localName "text:p" = "frame"),
    if_neg (by decide : ¬ localName "text:p" = "text-box"),
    if_pos (by decide : localName "text:p" = "p"), if_pos h]

theorem step_close_p (styles : List (String × StyleInfo)) (A : Archive)
    (s : ContentPassState) (h : s.in_paragraph = true) :
    contentPassStep styles A s (.close "text:p") =
      { s with in_paragraph := false, current_runs := [],
               current_paragraphs := s.current_paragraphs ++ [⟨s.current_runs⟩] } := by
  unfold contentPassStep
  dsimp only
  rw [if_neg (by decide : ¬ localName "text:p" = "presentation"),
    if_neg (by decide : ¬ localName "text:p" = "page"),
    if_neg (by decide : ¬ localName "text:p" = "frame"),
    if_neg (by decide : ¬ localName "text:p" = "text-box"),
    if_pos (by decide : localName "text:p" = "p"), if_pos h]

theorem step_start_span (styles : List (String × StyleInfo)) (A : Archive)
    (s : ContentPassState) (attrs : List (String × String)) (h : s.in_paragraph = true) :
    contentPassStep styles A s (.start "text:span" attrs) =
      { s with in_span := true, current_run_text := "",
               current_run_style :=
                 match lookupStyle styles (get_attr attrs "style-name") with
                 | some style =>
                     ⟨style.font_family.getD "Sans", style.font_size.getD 24,
                      style.font_bold, style.font_italic,
                      style.font_color.getD Color.black⟩
                 | none => FontStyle.dflt } := by
  unfold contentPassStep
  dsimp only
  rw [if_neg (by decide : ¬ localName "text:span" = "presentation"),
    if_neg (by decide : ¬ localName "text:span" = "page"),
    if_neg (by decide : ¬ localName "text:span" = "frame"),
    if_neg (by decide : ¬ localName "text:span" = "text-box"),
    if_neg (by decide : ¬ localName "text:span" = "p"),
    if_pos (by decide : localName "text:span" = "span"), if_pos h]

theorem step_close_span (styles : List (String × StyleInfo)) (A : Archive)
    (s : ContentPassState) (h : s.in_span = true) :
    contentPassStep styles A s (.close "text:span") =
      { s with in_span := false, current_run_text := "",
               current_runs :=
                 if s.current_run_text ≠ "" then
                   s.current_runs ++ [⟨s.current_run_text, s.current_run_style⟩]
                 else s.current_runs } := by
  unfold contentPassStep
  dsimp only
  rw [if_neg (by decide : ¬ localName "text:span" = "presentation"),
    if_neg (by decide : ¬ localName "text:span" = "page"),
    if_neg (by decide : ¬ localName "text:span" = "frame"),
    if_neg (by decide : ¬ localName "text:span" = "text-box"),
    if_neg (by decide : ¬ localName "text:span" = "p"),
    if_pos (by decide : localName "text:span" = "span"), if_pos h]

theorem step_text_span (styles : List (String × StyleInfo)) (A : Archive)
    (s : ContentPassState) (str : String) (h : s.in_span = true) :
    contentPassStep styles A s (.text str) =
      { s with current_run_text := s.current_run_text ++ str } := by
  unfold contentPassStep
  rw [h]
  simp

theorem step_empty_rect (styles : List (String × StyleInfo)) (A : Archive)
    (s : ContentPassState) (attrs : List (String × String)) (h : s.in_page = true) :
    contentPassStep styles A s (.empty "draw:rect" attrs) =
      { s with current_elements := s.current_elements ++
          [.shape (build_shape .rectangle (parse_bounds attrs)
            (get_attr attrs "style-name") styles)] } := by
  unfold contentPassStep
  dsimp only
  rw [if_pos (by decide : localName "draw:rect" = "rect"), if_pos h]

theorem step_empty_ellipse (styles : List (String × StyleInfo)) (A : Archive)
    (s : ContentPassState) (attrs : List (String × String)) (h : s.in_page = true) :
    contentPassStep styles A s (.empty "draw:ellipse" attrs) =
      { s with current_elements := s.current_elements ++
          [.shape (build_shape .ellipse (parse_bounds attrs)
            (get_attr attrs "style-name") styles)] } := by
  unfold contentPassStep
  dsimp only
  rw [if_neg (by decide : ¬ localName "draw:ellipse" = "rect"),
    if_pos (by decide : localName "draw:ellipse" = "ellipse"), if_pos h]

theorem step_empty_line (styles : List (String × StyleInfo)) (A : Archive)
    (s : ContentPassState) (attrs : List (String × String)) (h : s.in_page = true) :
    contentPassStep styles A s (.empty "draw:line" attrs) =
      { s with current_elements := s.current_elements ++
          [.shape (build_shape .line (parse_line_bounds attrs)
            (get_attr attrs "style-name") styles)] } := by
  unfold contentPassStep
  dsimp only
  rw [if_neg (by decide : ¬ localName "draw:line" = "rect"),
    if_neg (by decide : ¬ localName "draw:line" = "ellipse"),
    if_pos (by decide : localName "draw:line" = "line"), if_pos h]

theorem step_empty_image (styles : List (String × StyleInfo)) (A : Archive)
    (s : ContentPassState) (attrs : List (String × String)) (h : s.in_frame = true)
    (hh : get_attr attrs "href" ≠ "") (d : List Nat)
    (hd : A (get_attr attrs "href") = some d) :
    contentPassStep styles A s (.empty "draw:image" attrs) =
      { s with in_text_box := false, in_frame := false,
               current_elements := s.current_elements ++
                 [.image (ImageElement.mk2 s.frame_bounds d
                   (guess_mime (get_attr attrs "href")))] } := by
  unfold contentPassStep
  dsimp only
  rw [if_neg (by decide : ¬ localName "draw:image" = "rect"),
    if_neg (by decide : ¬ localName "draw:image" = "ellipse"),
    if_neg (by decide : ¬ localName "draw:image" = "line"),
    if_pos (by decide : localName "draw:image" = "image"), if_pos h, if_pos hh, hd]

theorem roundBounds_close (r : Rect) : rectClose (roundBounds r) r :=
  ⟨roundtrip_pt_close _, roundtrip_pt_close _, roundtrip_pt_close _, roundtrip_pt_close _⟩

theorem build_shape_bounds (st : ShapeType) (r : Rect) (n : String)
    (styles : List (String × StyleInfo)) : (build_shape st r n styles).bounds = r := by
  unfold build_shape ShapeElement.mk2
  cases lookupStyle styles n <;> cases st <;> rfl

theorem build_shape_type (st : ShapeType) (r : Rect) (n : String)
    (styles : List (String × StyleInfo)) : (build_shape st r n styles).shape_type = st := by
  unfold build_shape ShapeElement.mk2
  cases lookupStyle styles n <;> cases st <;> rfl

theorem boundsStep_skip (q : ℚ × ℚ × ℚ × ℚ) (v : String) :
    boundsStep q ("draw:style-name", v) = q := by
  unfold boundsStep
  dsimp only
  rw [if_neg (by decide), if_neg (by decide), if_neg (by decide), if_neg (by decide)]

theorem boundsStep_x (q : ℚ × ℚ × ℚ × ℚ) (s : String) (r : ℚ)
    (h : parse_cm s = some r) : boundsStep q ("svg:x", s) = (r, q.2) := by
  unfold boundsStep
  dsimp only
  rw [if_pos (by decide), h]

theorem boundsStep_y (q : ℚ × ℚ × ℚ × ℚ) (s : String) (r : ℚ)
    (h : parse_cm s = some r) : boundsStep q ("svg:y", s) = (q.1, r, q.2.2) := by
  unfold boundsStep
  dsimp only
  rw [if_neg (by decide), if_pos (by decide), h]

theorem boundsStep_w (q : ℚ × ℚ × ℚ × ℚ) (s : String) (r : ℚ)
    (h : parse_cm s = some r) : boundsStep q ("svg:width", s) = (q.1, q.2.1, r, q.2.2.2) := by
  unfold boundsStep
  dsimp only
  rw [if_neg (by decide), if_neg (by decide), if_pos (by decide), h]

theorem boundsStep_h (q : ℚ × ℚ × ℚ × ℚ) (s : String) (r : ℚ)
    (h : parse_cm s = some r) :
    boundsStep q ("svg:height", s) = (q.1, q.2.1, q.2.2.1, r) := by
  unfold boundsStep
  dsimp only
  rw [if_neg (by decide), if_neg (by decide), if_neg (by decide), if_pos (by decide), h]

theorem parse_bounds_frameAttrs (name : String) (b : Rect) :
    parse_bounds (frameAttrs name b) = roundBounds b := by
  unfold parse_bounds frameAttrs
  rw [List.foldl_cons, boundsStep_skip, List.foldl_cons,
    boundsStep_x _ _ _ (parse_cm_format_cm _), List.foldl_cons,
    boundsStep_y _ _ _ (parse_cm_format_cm _), List.foldl_cons,
    boundsStep_w _ _ _ (parse_cm_format_cm _), List.foldl_cons,
    boundsStep_h _ _ _ (parse_cm_format_cm _), List.foldl_nil]
  rfl

theorem lineStep_skip (q : ℚ × ℚ × ℚ × ℚ) (v : String) :
    lineStep q ("draw:style-name", v) = q := by
  unfold lineStep
  dsimp only
  rw [if_neg (by decide), if_neg (by decide), if_neg (by decide), if_neg (by decide)]

theorem lineStep_x1 (q : ℚ × ℚ × ℚ × ℚ) (s : String) (r : ℚ)
    (h : parse_cm s = some r) : lineStep q ("svg:x1", s) = (r, q.2) := by
  unfold lineStep
  dsimp only
  rw [if_pos (by decide), h]

theorem lineStep_y1 (q : ℚ × ℚ × ℚ × ℚ) (s : String) (r : ℚ)
    (h : parse_cm s = some r) : lineStep q ("svg:y1", s) = (q.1, r, q.2.2) := by
  unfold lineStep
  dsimp only
  rw [if_neg (by decide), if_pos (by decide), h]

theorem lineStep_x2 (q : ℚ × ℚ × ℚ × ℚ) (s : String) (r : ℚ)
    (h : parse_cm s = some r) : lineStep q ("svg:x2", s) = (q.1, q.2.1, r, q.2.2.2) := by
  unfold lineStep
  dsimp only
  rw [if_neg (by decide), if_neg (by decide), if_pos (by decide), h]

theorem lineStep_y2 (q : ℚ × ℚ × ℚ × ℚ) (s : String) (r : ℚ)
    (h : parse_cm s = some r) :
    lineStep q ("svg:y2", s) = (q.1, q.2.1, q.2.2.1, r) := by
  unfold lineStep
  dsimp only
  rw [if_neg (by decide), if_neg (by decide), if_neg (by decide), if_pos (by decide), h]

theorem parse_line_bounds_writer (name : String) (b : Rect) :
    parse_line_bounds
      [("draw:style-name", name),
       ("svg:x1", format_cm b.origin.x), ("svg:y1", format_cm b.origin.y),
       ("svg:x2", format_cm (b.origin.x + b.size.width)),
       ("svg:y2", format_cm (b.origin.y + b.size.height))] =
      Rect.mk4
        (min (roundtrip_pt b.origin.x) (roundtrip_pt (b.origin.x + b.size.width)))
        (min (roundtrip_pt b.origin.y) (roundtrip_pt (b.origin.y + b.size.height)))
        |roundtrip_pt (b.origin.x + b.size.width) - roundtrip_pt b.origin.x|
        |roundtrip_pt (b.origin.y + b.size.height) - roundtrip_pt b.origin.y| := by
  unfold parse_line_bounds
  rw [List.foldl_cons, lineStep_skip, List.foldl_cons,
    lineStep_x1 _ _ _ (parse_cm_format_cm _), List.foldl_cons,
    lineStep_y1 _ _ _ (parse_cm_format_cm _), List.foldl_cons,
    lineStep_x2 _ _ _ (parse_cm_format_cm _), List.foldl_cons,
    lineStep_y2 _ _ _ (parse_cm_format_cm _), List.foldl_nil]

theorem round_mono_q {a b : ℚ} (h : a ≤ b) : round a ≤ round b := by
  rw [round_eq, round_eq]
  exact Int.floor_le_floor (by linarith)

theorem roundtrip_pt_mono {a b : ℚ} (h : a ≤ b) : roundtrip_pt a ≤ roundtrip_pt b := by
  have hc : (0:ℚ) < cmRate := by norm_num [cmRate]
  have h1 : pt_to_cm a ≤ pt_to_cm b := (div_le_div_right hc).mpr h
  have h2 : round (pt_to_cm a * 10000) ≤ round (pt_to_cm b * 10000) :=
    round_mono_q (by nlinarith)
  have h3 : ((round (pt_to_cm a * 10000) : ℚ)) / 10000 ≤
      ((round (pt_to_cm b * 10000) : ℚ)) / 10000 := by
    apply (div_le_div_right (by norm_num : (0:ℚ) < 10000)).mpr
    exact_mod_cast h2
  unfold roundtrip_pt cm_to_pt round4
  exact mul_le_mul_of_nonneg_right h3 (le_of_lt hc)

theorem pt_to_cm_sub (a b : ℚ) : pt_to_cm (a - b) = pt_to_cm a - pt_to_cm b := by
  unfold pt_to_cm
  ring

theorem roundtrip_pt_half (v : ℚ) :
    |pt_to_cm (roundtrip_pt v) - pt_to_cm v| ≤ 1 / 20000 := by
  unfold roundtrip_pt round4
  rw [pt_cm_inverse]
  have h := abs_sub_round (pt_to_cm v * 10000)
  rw [show (round (pt_to_cm v * 10000) : ℚ) / 10000 - pt_to_cm v =
      -((pt_to_cm v * 10000 - (round (pt_to_cm v * 10000) : ℚ)) / 10000) by ring]
  rw [abs_neg, abs_div, show |(10000 : ℚ)| = 10000 by norm_num]
  have h2 : |pt_to_cm v * 10000 - (round (pt_to_cm v * 10000) : ℚ)| / 10000 ≤
      (1 / 2) / 10000 :=
    (div_le_div_right (by norm_num)).mpr h
  linarith

theorem line_dim_close (x w : ℚ) (hw : 0 ≤ w) :
    cmClose (min (roundtrip_pt x) (roundtrip_pt (x + w))) x ∧
      cmClose |roundtrip_pt (x + w) - roundtrip_pt x| w := by
  have hmono := roundtrip_pt_mono (le_add_of_nonneg_right hw : x ≤ x + w)
  rw [min_eq_left hmono, abs_of_nonneg (sub_nonneg.mpr hmono)]
  refine ⟨roundtrip_pt_close x, ?_⟩
  unfold cmClose
  have h1 := roundtrip_pt_half (x + w)
  have h2 := roundtrip_pt_half x
  rw [pt_to_cm_sub]
  rw [show pt_to_cm (roundtrip_pt (x+w)) - pt_to_cm (roundtrip_pt x) - pt_to_cm w =
      (pt_to_cm (roundtrip_pt (x+w)) - pt_to_cm (x+w)) -
        (pt_to_cm (roundtrip_pt x) - pt_to_cm x) by unfold pt_to_cm; ring]
  calc |(pt_to_cm (roundtrip_pt (x+w)) - pt_to_cm (x+w)) -
        (pt_to_cm (roundtrip_pt x) - pt_to_cm x)|
      ≤ |pt_to_cm (roundtrip_pt (x+w)) - pt_to_cm (x+w)| +
        |pt_to_cm (roundtrip_pt x) - pt_to_cm x| := abs_sub _ _
    _ ≤ 1/20000 + 1/20000 := add_le_add h1 h2
    _ ≤ 1/10000 := by norm_num

theorem imagePath_ne_empty (i : Nat) (d : ImageData) : imagePath i d ≠ "" := by
  intro h
  have h2 := congrArg (fun s => s.data.head?) h
  exact Option.noConfusion h2

theorem step_ws (styles : List (String × StyleInfo)) (A : Archive)
    (s : ContentPassState) (hspan : s.in_span = false) :
    contentPassStep styles A s ws = s :=
  step_text_ws styles A s "\n" hspan (by decide)

theorem runsKept_trans {s s1 s2 : ContentPassState}
    (h1 : runsKept s s1) (h2 : runsKept s1 s2) : runsKept s s2 := by
  obtain ⟨a1,b1,c1,d1,e1,f1,g1,i1,j1,k1,l1⟩ := h1
  obtain ⟨a2,b2,c2,d2,e2,f2,g2,i2,j2,k2,l2⟩ := h2
  exact ⟨a2.trans a1, b2.trans b1, c2.trans c1, d2.trans d1, e2.trans e1, f2,
    g2.trans g1, i2.trans i1, j2.trans j1, k2.trans k1, l2.trans l1⟩

theorem parasKept_trans {s s1 s2 : ContentPassState}
    (h1 : parasKept s s1) (h2 : parasKept s1 s2) : parasKept s s2 := by
  obtain ⟨a1,b1,c1,d1,e1,f1,g1,i1,j1⟩ := h1
  obtain ⟨a2,b2,c2,d2,e2,f2,g2,i2,j2⟩ := h2
  exact ⟨a2.trans a1, b2.trans b1, c2.trans c1, d2.trans d1, e2, f2,
    g2.trans g1, i2.trans i1, j2.trans j1⟩

theorem step_start_span' (styles : List (String × StyleInfo)) (A : Archive)
    (s : ContentPassState) (attrs : List (String × String)) (h : s.in_paragraph = true) :
    ∃ rst, contentPassStep styles A s (.start "text:span" attrs) =
      { s with in_span := true, current_run_text := "", current_run_style := rst } :=
  ⟨_, step_start_span styles A s attrs h⟩

theorem run_seg (styles : List (String × StyleInfo)) (A : Archive) (si pi ri : Nat)
    (run : TextRun) (s : ContentPassState)
    (hp : s.in_paragraph = true) (hs : s.in_span = false) :
    ∃ s', List.foldl (contentPassStep styles A) s (runBodyEvents si pi ri run) = s' ∧
      runsKept s s' := by
  obtain ⟨rst, h1⟩ := step_start_span' styles A s
    [("text:style-name", runStyleName si pi ri)] hp
  unfold runBodyEvents
  rw [List.foldl_append, List.foldl_append]
  rw [show List.foldl (contentPassStep styles A) s
      [XmlEvent.start "text:span" [("text:style-name", runStyleName si pi ri)]] =
      contentPassStep styles A s
        (.start "text:span" [("text:style-name", runStyleName si pi ri)]) from rfl, h1]
  by_cases ht : run.text = ""
  · rw [if_pos ht, List.foldl_nil]
    simp only [List.foldl_cons, List.foldl_nil]
    rw [step_close_span styles A _ rfl, step_ws styles A _ rfl]
    exact ⟨_, rfl, rfl, rfl, rfl, rfl, rfl, rfl, rfl, rfl, rfl, rfl, rfl⟩
  · rw [if_neg ht]
    simp only [List.foldl_cons, List.foldl_nil]
    rw [step_text_span styles A _ run.text rfl,
      step_close_span styles A _ rfl, step_ws styles A _ rfl]
    exact ⟨_, rfl, rfl, rfl, rfl, rfl, rfl, rfl, rfl, rfl, rfl, rfl, rfl⟩

theorem runs_fold (styles : List (String × StyleInfo)) (A : Archive) (si pi : Nat)
    (l : List (Nat × TextRun)) :
    ∀ s : ContentPassState, s.in_paragraph = true → s.in_span = false →
    ∃ s', List.foldl (contentPassStep styles A) s
        (l.flatMap fun r => runBodyEvents si pi r.1 r.2) = s' ∧ runsKept s s' := by
  induction l with
  | nil =>
      intro s hp hs
      exact ⟨s, rfl, rfl, rfl, rfl, rfl, rfl, hs, rfl, rfl, rfl, rfl, rfl⟩
  | cons r rest ih =>
      intro s hp hs
      rw [List.flatMap_cons, List.foldl_append]
      obtain ⟨s1, he1, hk1⟩ := run_seg styles A si pi r.1 r.2 s hp hs
      rw [he1]
      obtain ⟨s2, he2, hk2⟩ := ih s1 (hk1.2.2.2.2.1.trans hp) hk1.2.2.2.2.2.1
      rw [he2]
      exact ⟨s2, rfl, runsKept_trans hk1 hk2⟩

theorem step_start_p' (styles : List (String × StyleInfo)) (A : Archive)
    (s : ContentPassState) (attrs : List (String × String)) (h : s.in_text_box = true) :
    ∃ al, contentPassStep styles A s (.start "text:p" attrs) =
      { s with in_paragraph := true, current_runs := [], current_text_align := al } :=
  ⟨_, step_start_p styles A s attrs h⟩

theorem para_seg (styles : List (String × StyleInfo)) (A : Archive) (si pi : Nat)
    (para : TextParagraph) (s : ContentPassState)
    (htb : s.in_text_box = true) (hp : s.in_paragraph = false) (hs : s.in_span = false) :
    ∃ s' pp, List.foldl (contentPassStep styles A) s (paraBodyEvents si pi para) = s' ∧
      parasKept s s' ∧ s'.current_paragraphs = s.current_paragraphs ++ [pp] := by
  obtain ⟨al, h1⟩ := step_start_p' styles A s
    [("text:style-name", paraStyleName si pi)] htb
  unfold paraBodyEvents
  rw [List.foldl_append, List.foldl_append]
  simp only [List.foldl_cons, List.foldl_nil]
  rw [h1, step_ws styles A
    { s with in_paragraph := true, current_runs := [], current_text_align := al } hs]
  obtain ⟨s1, he1, hk1⟩ := runs_fold styles A si pi para.runs.enum
    { s with in_paragraph := true, current_runs := [], current_text_align := al } rfl hs
  rw [he1]
  obtain ⟨q1, q2, q3, q4, q5, q6, q7, q8, q9, q10, q11⟩ := hk1
  rw [step_close_p styles A s1 q5, step_ws styles A
    { s1 with in_paragraph := false, current_runs := [],
              current_paragraphs := s1.current_paragraphs ++ [⟨s1.current_runs⟩] } q6]
  refine ⟨_, ⟨s1.current_runs⟩, rfl, ⟨q1, q2, q3, q4, rfl, q6, q7, q8, q11⟩, ?_⟩
  rw [show s1.current_paragraphs = s.current_paragraphs from q9]

theorem paras_fold (styles : List (String × StyleInfo)) (A : Archive) (si : Nat)
    (l : List (Nat × TextParagraph)) :
    ∀ s : ContentPassState, s.in_text_box = true → s.in_paragraph = false →
      s.in_span = false →
    ∃ s' pps, List.foldl (contentPassStep styles A) s
        (l.flatMap fun p => paraBodyEvents si p.1 p.2) = s' ∧
      parasKept s s' ∧ s'.current_paragraphs = s.current_paragraphs ++ pps ∧
      pps.length = l.length := by
  induction l with
  | nil =>
      intro s htb hp hs
      exact ⟨s, [], rfl, ⟨rfl, rfl, rfl, rfl, hp, hs, rfl, rfl, rfl⟩, by simp, rfl⟩
  | cons p rest ih =>
      intro s htb hp hs
      rw [List.flatMap_cons, List.foldl_append]
      obtain ⟨s1, pp, he1, hk1, hcp1⟩ := para_seg styles A si p.1 p.2 s htb hp hs
      rw [he1]
      obtain ⟨s2, pps, he2, hk2, hcp2, hlen⟩ := ih s1
        (hk1.2.2.2.1.trans htb) hk1.2.2.2.2.1 hk1.2.2.2.2.2.1
      rw [he2]
      refine ⟨s2, pp :: pps, rfl, parasKept_trans hk1 hk2, ?_, by simp [hlen]⟩
      rw [hcp2, hcp1]
      simp

theorem text_seg (styles : List (String × StyleInfo)) (A : Archive) (k si : Nat)
    (t : TextElement) (s : ContentPassState)
    (hpg : s.in_page = true) (hfr : s.in_frame = false) (htb : s.in_text_box = false)
    (hp : s.in_paragraph = false) (hs : s.in_span = false)
    (hpar : t.paragraphs ≠ []) :
    ∃ s' el', List.foldl (contentPassStep styles A) s (textBodyEvents k si t) = s' ∧
      elemKept s s' ∧ s'.current_elements = s.current_elements ++ [el'] ∧
      elemMatches el' (.text t) := by
  unfold textBodyEvents
  rw [List.foldl_append, List.foldl_append]
  simp only [List.foldl_cons, List.foldl_nil]
  rw [step_start_frame styles A s (frameAttrs (grStyleName k) t.bounds) hpg,
    step_ws styles A
      { s with in_frame := true,
               frame_bounds := parse_bounds (frameAttrs (grStyleName k) t.bounds) } hs,
    step_start_textbox styles A
      { s with in_frame := true,
               frame_bounds := parse_bounds (frameAttrs (grStyleName k) t.bounds) } [] rfl]
  dsimp only
  rw [step_ws styles A
      { s with in_frame := true, in_text_box := true, current_paragraphs := [],
               frame_bounds := parse_bounds (frameAttrs (grStyleName k) t.bounds) } hs]
  obtain ⟨s1, pps, he1, hk1, hcp1, hlen⟩ := paras_fold styles A si t.paragraphs.enum
    { s with in_frame := true, in_text_box := true, current_paragraphs := [],
             frame_bounds := parse_bounds (frameAttrs (grStyleName k) t.bounds) } rfl hp hs
  rw [he1]
  obtain ⟨q1, q2, q3, q4, q5, q6, q7, q8, q9⟩ := hk1
  have hpps : pps ≠ [] := by
    intro hcontra
    rw [hcontra, List.enum_length] at hlen
    exact hpar (List.eq_nil_of_length_eq_zero hlen.symm)
  have hcps : s1.current_paragraphs ≠ [] := by
    rw [hcp1]
    intro hcontra
    exact hpps (List.append_eq_nil.mp hcontra).2
  rw [step_close_textbox styles A s1 q4,
    step_ws styles A
      { s1 with in_text_box := false, current_paragraphs := [],
                current_elements :=
                  if s1.current_paragraphs ≠ [] then
                    s1.current_elements ++
                      [.text { TextElement.mk2 s1.frame_bounds "" with
                                 paragraphs := s1.current_paragraphs,
                                 alignment := s1.current_text_align }]
                  else s1.current_elements } q6,
    step_close_frame styles A
      { s1 with in_text_box := false, current_paragraphs := [],
                current_elements :=
                  if s1.current_paragraphs ≠ [] then
                    s1.current_elements ++
                      [.text { TextElement.mk2 s1.frame_bounds "" with
                                 paragraphs := s1.current_paragraphs,
                                 alignment := s1.current_text_align }]
                  else s1.current_elements } q3]
  dsimp only
  rw [step_ws styles A
      { s1 with in_frame := false, in_text_box := false, current_paragraphs := [],
                current_elements :=
                  if s1.current_paragraphs ≠ [] then
                    s1.current_elements ++
                      [.text { TextElement.mk2 s1.frame_bounds "" with
                                 paragraphs := s1.current_paragraphs,
                                 alignment := s1.current_text_align }]
                  else s1.current_elements } q6]
  refine ⟨_, .text { TextElement.mk2 s1.frame_bounds "" with
      paragraphs := s1.current_paragraphs, alignment := s1.current_text_align },
    rfl, ⟨q1, q2, rfl, rfl, q5, q6, q7⟩, ?_, ?_⟩
  · dsimp only
    rw [if_pos hcps, show s1.current_elements = s.current_elements from q8]
  · refine ⟨trivial, ?_⟩
    rw [show s1.frame_bounds =
        parse_bounds (frameAttrs (grStyleName k) t.bounds) from q9,
      parse_bounds_frameAttrs]
    exact roundBounds_close t.bounds

theorem shape_seg (styles : List (String × StyleInfo)) (A : Archive) (k : Nat)
    (sh : ShapeElement) (s : ContentPassState)
    (hpg : s.in_page = true) (hfr : s.in_frame = false) (htb : s.in_text_box = false)
    (hp : s.in_paragraph = false) (hs : s.in_span = false)
    (hline : lineSizeNonneg (.shape sh)) :
    ∃ s' el', List.foldl (contentPassStep styles A) s (shapeBodyEvents k sh) = s' ∧
      elemKept s s' ∧ s'.current_elements = s.current_elements ++ [el'] ∧
      elemMatches el' (.shape sh) := by
  unfold shapeBodyEvents
  cases hst : sh.shape_type with
  | rectangle =>
      simp only [List.foldl_cons, List.foldl_nil]
      rw [step_empty_rect styles A s (frameAttrs (grStyleName k) sh.bounds) hpg,
        step_ws styles A
          { s with current_elements := s.current_elements ++
              [.shape (build_shape .rectangle
                (parse_bounds (frameAttrs (grStyleName k) sh.bounds))
                (get_attr (frameAttrs (grStyleName k) sh.bounds) "style-name") styles)] } hs]
      refine ⟨_, _, rfl, ⟨rfl, rfl, hfr, htb, hp, hs, rfl⟩, rfl, trivial, ?_⟩
      dsimp only [SlideElement.bounds]
      rw [build_shape_bounds, parse_bounds_frameAttrs]
      exact roundBounds_close sh.bounds
  | ellipse =>
      simp only [List.foldl_cons, List.foldl_nil]
      rw [step_empty_ellipse styles A s (frameAttrs (grStyleName k) sh.bounds) hpg,
        step_ws styles A
          { s with current_elements := s.current_elements ++
              [.shape (build_shape .ellipse
                (parse_bounds (frameAttrs (grStyleName k) sh.bounds))
                (get_attr (frameAttrs (grStyleName k) sh.bounds) "style-name") styles)] } hs]
      refine ⟨_, _, rfl, ⟨rfl, rfl, hfr, htb, hp, hs, rfl⟩, rfl, trivial, ?_⟩
      dsimp only [SlideElement.bounds]
      rw [build_shape_bounds, parse_bounds_frameAttrs]
      exact roundBounds_close sh.bounds
  | line =>
      obtain ⟨hw, hh⟩ := hline hst
      simp only [List.foldl_cons, List.foldl_nil]
      rw [step_empty_line styles A s
          [("draw:style-name", grStyleName k),
           ("svg:x1", format_cm sh.bounds.origin.x),
           ("svg:y1", format_cm sh.bounds.origin.y),
           ("svg:x2", format_cm (sh.bounds.origin.x + sh.bounds.size.width)),
           ("svg:y2", format_cm (sh.bounds.origin.y + sh.bounds.size.height))] hpg,
        step_ws styles A
          { s with current_elements := s.current_elements ++
              [.shape (build_shape .line
                (parse_line_bounds
                  [("draw:style-name", grStyleName k),
                   ("svg:x1", format_cm sh.bounds.origin.x),
                   ("svg:y1", format_cm sh.bounds.origin.y),
                   ("svg:x2", format_cm (sh.bounds.origin.x + sh.bounds.size.width)),
                   ("svg:y2", format_cm (sh.bounds.origin.y + sh.bounds.size.height))])
                (get_attr
                  [("draw:style-name", grStyleName k),
                   ("svg:x1", format_cm sh.bounds.origin.x),
                   ("svg:y1", format_cm sh.bounds.origin.y),
                   ("svg:x2", format_cm (sh.bounds.origin.x + sh.bounds.size.width)),
                   ("svg:y2", format_cm (sh.bounds.origin.y + sh.bounds.size.height))]
                  "style-name") styles)] } hs]
      refine ⟨_, _, rfl, ⟨rfl, rfl, hfr, htb, hp, hs, rfl⟩, rfl, trivial, ?_⟩
      dsimp only [SlideElement.bounds]
      rw [build_shape_bounds, parse_line_bounds_writer]
      obtain ⟨c1, c2⟩ := line_dim_close sh.bounds.origin.x sh.bounds.size.width hw
      obtain ⟨c3, c4⟩ := line_dim_close sh.bounds.origin.y sh.bounds.size.height hh
      exact ⟨c1, c3, c2, c4⟩

theorem image_seg (styles : List (String × StyleInfo)) (A : Archive) (k i : Nat)
    (img : ImageElement) (s : ContentPassState)
    (hpg : s.in_page = true) (hfr : s.in_frame = false) (htb : s.in_text_box = false)
    (hp : s.in_paragraph = false) (hs : s.in_span = false)
    (hsome : (A (imagePath i img.image_data)).isSome = true) :
    ∃ s' el', List.foldl (contentPassStep styles A) s (imageBodyEvents k i img) = s' ∧
      elemKept s s' ∧ s'.current_elements = s.current_elements ++ [el'] ∧
      elemMatches el' (.image img) := by
  obtain ⟨d, hd⟩ := Option.isSome_iff_exists.mp hsome
  unfold imageBodyEvents
  simp only [List.foldl_cons, List.foldl_nil]
  rw [step_start_frame styles A s (frameAttrs (grStyleName k) img.bounds) hpg,
    step_ws styles A
      { s with in_frame := true,
               frame_bounds := parse_bounds (frameAttrs (grStyleName k) img.bounds) } hs,
    step_empty_image styles A
      { s with in_frame := true,
               frame_bounds := parse_bounds (frameAttrs (grStyleName k) img.bounds) }
      [("xlink:href", imagePath i img.image_data), ("xlink:type", "simple"),
       ("xlink:show", "embed"), ("xlink:actuate", "onLoad")]
      rfl (imagePath_ne_empty i img.image_data) d hd]
  dsimp only
  rw [step_ws styles A
      { s with in_frame := false, in_text_box := false,
               frame_bounds := parse_bounds (frameAttrs (grStyleName k) img.bounds),
               current_elements := s.current_elements ++
                 [.image (ImageElement.mk2
                   (parse_bounds (frameAttrs (grStyleName k) img.bounds)) d
                   (guess_mime (get_attr
                     [("xlink:href", imagePath i img.image_data), ("xlink:type", "simple"),
                      ("xlink:show", "embed"), ("xlink:actuate", "onLoad")] "href")))] } hs,
    step_close_frame_off styles A
      { s with in_frame := false, in_text_box := false,
               frame_bounds := parse_bounds (frameAttrs (grStyleName k) img.bounds),
               current_elements := s.current_elements ++
                 [.image (ImageElement.mk2
                   (parse_bounds (frameAttrs (grStyleName k) img.bounds)) d
                   (guess_mime (get_attr
                     [("xlink:href", imagePath i img.image_data), ("xlink:type", "simple"),
                      ("xlink:show", "embed"), ("xlink:actuate", "onLoad")] "href")))] } rfl,
    step_ws styles A
      { s with in_frame := false, in_text_box := false,
               frame_bounds := parse_bounds (frameAttrs (grStyleName k) img.bounds),
               current_elements := s.current_elements ++
                 [.image (ImageElement.mk2
                   (parse_bounds (frameAttrs (grStyleName k) img.bounds)) d
                   (guess_mime (get_attr
                     [("xlink:href", imagePath i img.image_data), ("xlink:type", "simple"),
                      ("xlink:show", "embed"), ("xlink:actuate", "onLoad")] "href")))] } hs]
  refine ⟨_, _, rfl, ⟨rfl, rfl, rfl, rfl, hp, hs, rfl⟩, rfl, trivial, ?_⟩
  dsimp only [SlideElement.bounds]
  rw [parse_bounds_frameAttrs]
  exact roundBounds_close img.bounds

theorem elemKept_pageReady {s s' : ContentPassState} (h : elemKept s s')
    (hr : pageReady s) : pageReady s' := by
  obtain ⟨a, b, c, d, e, f, _⟩ := h
  obtain ⟨r1, r2, _, _, _, _⟩ := hr
  exact ⟨a.trans r1, b.trans r2, c, d, e, f⟩

theorem elem_seg (styles : List (String × StyleInfo)) (A : Archive) (si k i : Nat)
    (el : SlideElement) (s : ContentPassState)
    (hr : pageReady s) (htext : textParasNonempty el) (hline : lineSizeNonneg el)
    (himg : ∀ en ∈ (writeElement si k i el).2.2, (A en.1).isSome = true) :
    ∃ s' el', List.foldl (contentPassStep styles A) s (writeElement si k i el).2.1 = s' ∧
      elemKept s s' ∧ s'.current_elements = s.current_elements ++ [el'] ∧
      elemMatches el' el := by
  obtain ⟨r1, r2, r3, r4, r5, r6⟩ := hr
  cases el with
  | text t => exact text_seg styles A k si t s r2 r3 r4 r5 r6 htext
  | shape sh => exact shape_seg styles A k sh s r2 r3 r4 r5 r6 hline
  | image img =>
      apply image_seg styles A k i img s r2 r3 r4 r5 r6
      exact himg (imagePath i img.image_data, img.image_data.data) (by simp [writeElement])

theorem elems_fold (styles : List (String × StyleInfo)) (A : Archive) (si : Nat)
    (els : List SlideElement) :
    ∀ k i s, pageReady s →
      (∀ el ∈ els, textParasNonempty el) →
      (∀ el ∈ els, lineSizeNonneg el) →
      (∀ en ∈ (writeElements si k i els).2.2, (A en.1).isSome = true) →
    ∃ s' els', List.foldl (contentPassStep styles A) s (writeElements si k i els).2.1 = s' ∧
      pageReady s' ∧ s'.slides = s.slides ∧
      s'.current_elements = s.current_elements ++ els' ∧
      List.Forall₂ elemMatches els' els := by
  induction els with
  | nil =>
      intro k i s hr _ _ _
      exact ⟨s, [], rfl, hr, rfl, by simp, List.Forall₂.nil⟩
  | cons el rest ih =>
      intro k i s hr htext hline himg
      unfold writeElements
      dsimp only
      rw [List.foldl_append]
      obtain ⟨s1, el', he1, hk1, hel1, hm1⟩ := elem_seg styles A si k i el s hr
        (htext el (by simp)) (hline el (by simp))
        (fun en hen => himg en (by
          unfold writeElements
          dsimp only
          exact List.mem_append.mpr (Or.inl hen)))
      rw [he1]
      obtain ⟨s2, els', he2, hr2, hsl2, hel2, hm2⟩ := ih (k+1) (i + imgCount el) s1
        (elemKept_pageReady hk1 hr)
        (fun x hx => htext x (by simp [hx])) (fun x hx => hline x (by simp [hx]))
        (fun en hen => himg en (by
          unfold writeElements
          dsimp only
          exact List.mem_append.mpr (Or.inr hen)))
      rw [he2]
      refine ⟨s2, el' :: els', rfl, hr2, hsl2.trans hk1.2.2.2.2.2.2, ?_,
        List.Forall₂.cons hm1 hm2⟩
      rw [hel2, hel1]
      simp

theorem slides_fold (styles : List (String × StyleInfo)) (A : Archive)
    (sls : List Slide) :
    ∀ si k i s, bodyReady s →
      (∀ sl ∈ sls, ∀ el ∈ sl.elements, textParasNonempty el) →
      (∀ sl ∈ sls, ∀ el ∈ sl.elements, lineSizeNonneg el) →
      (∀ en ∈ (writeSlides si k i sls).2.2, (A en.1).isSome = true) →
    ∃ s' sls', List.foldl (contentPassStep styles A) s (writeSlides si k i sls).2.1 = s' ∧
      bodyReady s' ∧ s'.slides = s.slides ++ sls' ∧
      List.Forall₂ slideMatches sls' sls := by
  induction sls with
  | nil =>
      intro si k i s hb _ _ _
      exact ⟨s, [], rfl, hb, by simp, List.Forall₂.nil⟩
  | cons sl rest ih =>
      intro si k i s hb htext hline himg
      obtain ⟨b1, b2, b3, b4, b5, b6⟩ := hb
      unfold writeSlides
      dsimp only
      rw [List.foldl_append, List.foldl_append, List.foldl_append]
      simp only [List.foldl_cons, List.foldl_nil]
      rw [step_start_page styles A s (pageAttrs si) b1,
        step_ws styles A { s with in_page := true, current_elements := [] } b6]
      obtain ⟨s1, els', he1, hr1, hsl1, hel1, hm1⟩ := elems_fold styles A si sl.elements k i
        { s with in_page := true, current_elements := [] }
        ⟨b1, rfl, b3, b4, b5, b6⟩
        (htext sl (by simp)) (hline sl (by simp))
        (fun en hen => himg en (by
          unfold writeSlides
          dsimp only
          exact List.mem_append.mpr (Or.inl hen)))
      rw [he1]
      obtain ⟨p1, p2, p3, p4, p5, p6⟩ := hr1
      rw [step_close_page styles A s1 p2,
        step_ws styles A
          { s1 with in_page := false, current_elements := [],
                    slides := s1.slides ++
                      [{ Slide.new with elements := s1.current_elements }] } p6]
      obtain ⟨s2, sls', he2, hb2, hsl2, hm2⟩ := ih (si+1) (k + sl.elements.length)
        (i + (sl.elements.map imgCount).sum)
        { s1 with in_page := false, current_elements := [],
                  slides := s1.slides ++
                    [{ Slide.new with elements := s1.current_elements }] }
        ⟨p1, rfl, p3, p4, p5, p6⟩
        (fun x hx => htext x (by simp [hx])) (fun x hx => hline x (by simp [hx]))
        (fun en hen => himg en (by
          unfold writeSlides
          dsimp only
          exact List.mem_append.mpr (Or.inr hen)))
      rw [he2]
      have hel1' : s1.current_elements = els' := hel1.trans rfl
      refine ⟨s2, { Slide.new with elements := s1.current_elements } :: sls', rfl, hb2,
        ?_, List.Forall₂.cons ?_ hm2⟩
      · rw [hsl2]
        dsimp only
        rw [show s1.slides = s.slides from hsl1]
        simp
      · unfold slideMatches
        dsimp only
        rw [hel1']
        exact hm1

/-- C1 (amended): for a Document with at least one slide, whose text elements
all have at least one paragraph, and whose line shapes have non-negative
stored sizes, loading the Format-A content produced by saving it yields a
Document with the same number of slides, and for every slide the same number
of elements in the same Text/Image/Shape kind sequence, with each element's
bounds within the 0.0001 cm formatting tolerance of the original. -/
theorem odp_roundtrip (doc : Document)
    (hne : doc.slides ≠ [])
    (htext : ∀ sl ∈ doc.slides, ∀ el ∈ sl.elements, textParasNonempty el)
    (hline : ∀ sl ∈ doc.slides, ∀ el ∈ sl.elements, lineSizeNonneg el) :
    List.Forall₂ slideMatches
      (parse_content (build_content doc).1 (odpArchive doc)).slides doc.slides ∧
    (parse_content (build_content doc).1 (odpArchive doc)).slides.length =
      doc.slides.length := by
  have himg : ∀ en ∈ (writeSlides 0 0 0 doc.slides).2.2,
      ((odpArchive doc) en.1).isSome = true := by
    intro en hen
    unfold odpArchive
    cases hfind : (build_content doc).2.find? (fun e => e.1 = en.1) with
    | some v => rfl
    | none =>
        have h := List.find?_eq_none.mp hfind en hen
        exact absurd (by simp) h
  simp only [parse_content]
  generalize ((build_content doc).1.foldl stylePassStep StylePassState.init).styles = ST
  obtain ⟨s', sls', he, hb', hsl, hm⟩ := slides_fold ST (odpArchive doc) doc.slides 0 0 0
    { ContentPassState.init with in_presentation := true }
    ⟨rfl, rfl, rfl, rfl, rfl, rfl⟩ htext hline himg
  simp only [build_content]
  rw [List.foldl_append, List.foldl_append, List.foldl_append, List.foldl_append,
    List.foldl_append]
  have hP1 : ∀ e ∈ [XmlEvent.decl,
      XmlEvent.start "office:document-content" [("office:version", "1.2")], ws,
      XmlEvent.start "office:automatic-styles" [], ws], neutralEvent e := by
    intro e he
    fin_cases he <;> decide
  rw [foldl_neutral ST (odpArchive doc) _ hP1 ContentPassState.init rfl,
    foldl_neutral ST (odpArchive doc) _ neutral_dpAuto ContentPassState.init rfl,
    foldl_neutral ST (odpArchive doc) _ (neutral_writeSlides doc.slides 0 0 0)
      ContentPassState.init rfl]
  simp only [List.foldl_cons, List.foldl_nil]
  rw [step_neutral ST (odpArchive doc) ContentPassState.init
      (.close "office:automatic-styles") (by decide) rfl,
    step_ws ST (odpArchive doc) ContentPassState.init rfl,
    step_neutral ST (odpArchive doc) ContentPassState.init
      (.start "office:body" []) (by decide) rfl,
    step_ws ST (odpArchive doc) ContentPassState.init rfl,
    step_start_presentation ST (odpArchive doc) ContentPassState.init [],
    step_ws ST (odpArchive doc)
      { ContentPassState.init with in_presentation := true } rfl,
    he,
    step_close_presentation ST (odpArchive doc) s',
    step_ws ST (odpArchive doc) { s' with in_presentation := false } hb'.2.2.2.2.2,
    step_neutral ST (odpArchive doc) { s' with in_presentation := false }
      (.close "office:body") (by decide) hb'.2.2.2.2.2,
    step_ws ST (odpArchive doc) { s' with in_presentation := false } hb'.2.2.2.2.2,
    step_neutral ST (odpArchive doc) { s' with in_presentation := false }
      (.close "office:document-content") (by decide) hb'.2.2.2.2.2,
    step_ws ST (odpArchive doc) { s' with in_presentation := false } hb'.2.2.2.2.2]
  have hsl' : s'.slides = sls' := hsl.trans rfl
  have hne' : sls' ≠ [] := by
    intro hc
    rw [hc] at hm
    have h0 := List.Forall₂.length_eq hm
    exact hne (List.eq_nil_of_length_eq_zero h0.symm)
  dsimp only
  rw [hsl', if_neg hne']
  exact ⟨hm, List.Forall₂.length_eq hm⟩

theorem text_seg_empty (styles : List (String × StyleInfo)) (A : Archive) (k si : Nat)
    (t : TextElement) (s : ContentPassState)
    (hpg : s.in_page = true) (hfr : s.in_frame = false) (htb : s.in_text_box = false)
    (hp : s.in_paragraph = false) (hs : s.in_span = false)
    (hpar : t.paragraphs = []) :
    ∃ s', List.foldl (contentPassStep styles A) s (textBodyEvents k si t) = s' ∧
      elemKept s s' ∧ s'.current_elements = s.current_elements := by
  unfold textBodyEvents
  rw [List.foldl_append, List.foldl_append]
  simp only [List.foldl_cons, List.foldl_nil]
  rw [step_start_frame styles A s (frameAttrs (grStyleName k) t.bounds) hpg,
    step_ws styles A
      { s with in_frame := true,
               frame_bounds := parse_bounds (frameAttrs (grStyleName k) t.bounds) } hs,
    step_start_textbox styles A
      { s with in_frame := true,
               frame_bounds := parse_bounds (frameAttrs (grStyleName k) t.bounds) } [] rfl]
  dsimp only
  rw [step_ws styles A
      { s with in_frame := true, in_text_box := true, current_paragraphs := [],
               frame_bounds := parse_bounds (frameAttrs (grStyleName k) t.bounds) } hs]
  obtain ⟨s1, pps, he1, hk1, hcp1, hlen⟩ := paras_fold styles A si t.paragraphs.enum
    { s with in_frame := true, in_text_box := true, current_paragraphs := [],
             frame_bounds := parse_bounds (frameAttrs (grStyleName k) t.bounds) } rfl hp hs
  rw [he1]
  obtain ⟨q1, q2, q3, q4, q5, q6, q7, q8, q9⟩ := hk1
  have hpps : pps = [] := by
    rw [hpar] at hlen
    simpa using List.eq_nil_of_length_eq_zero (by simpa using hlen)
  have hcps : ¬ s1.current_paragraphs ≠ [] := by
    rw [hcp1, hpps]
    simp
  rw [step_close_textbox styles A s1 q4,
    step_ws styles A
      { s1 with in_text_box := false, current_paragraphs := [],
                current_elements :=
                  if s1.current_paragraphs ≠ [] then
                    s1.current_elements ++
                      [.text { TextElement.mk2 s1.frame_bounds "" with
                                 paragraphs := s1.current_paragraphs,
                                 alignment := s1.current_text_align }]
                  else s1.current_elements } q6,
    step_close_frame styles A
      { s1 with in_text_box := false, current_paragraphs := [],
                current_elements :=
                  if s1.current_paragraphs ≠ [] then
                    s1.current_elements ++
                      [.text { TextElement.mk2 s1.frame_bounds "" with
                                 paragraphs := s1.current_paragraphs,
                                 alignment := s1.current_text_align }]
                  else s1.current_elements } q3]
  dsimp only
  rw [step_ws styles A
      { s1 with in_frame := false, in_text_box := false, current_paragraphs := [],
                current_elements :=
                  if s1.current_paragraphs ≠ [] then
                    s1.current_elements ++
                      [.text { TextElement.mk2 s1.frame_bounds "" with
                                 paragraphs := s1.current_paragraphs,
                                 alignment := s1.current_text_align }]
                  else s1.current_elements } q6]
  refine ⟨_, rfl, ⟨q1, q2, rfl, rfl, q5, q6, q7⟩, ?_⟩
  dsimp only
  rw [if_neg hcps, show s1.current_elements = s.current_elements from q8]

theorem elems_fold_empty_text (styles : List (String × StyleInfo)) (A : Archive)
    (si k i : Nat) (t : TextElement) (s : ContentPassState)
    (hr : pageReady s) (hpar : t.paragraphs = []) :
    ∃ s', List.foldl (contentPassStep styles A)
        s (writeElements si k i [.text t]).2.1 = s' ∧
      pageReady s' ∧ s'.slides = s.slides ∧
      s'.current_elements = s.current_elements := by
  obtain ⟨r1, r2, r3, r4, r5, r6⟩ := hr
  unfold writeElements writeElement
  dsimp only
  rw [List.foldl_append]
  obtain ⟨s1, he1, hk1, hel1⟩ := text_seg_empty styles A k si t s r2 r3 r4 r5 r6 hpar
  rw [he1, show (writeElements si (k+1) (i + imgCount (.text t)) []).2.1 =
    ([] : List XmlEvent) from rfl, List.foldl_nil]
  exact ⟨s1, rfl, elemKept_pageReady hk1 ⟨r1, r2, r3, r4, r5, r6⟩,
    hk1.2.2.2.2.2.2, hel1⟩

theorem cex_main :
    (parse_content (build_content emptyTextDoc).1 (odpArchive emptyTextDoc)).slides =
      [{ Slide.new with elements := [] }] := by
  simp only [parse_content]
  generalize ((build_content emptyTextDoc).1.foldl stylePassStep
    StylePassState.init).styles = ST
  obtain ⟨s1, he1, hr1, hsl1, hel1⟩ := elems_fold_empty_text ST (odpArchive emptyTextDoc)
    0 0 0 emptyTextElem
    { ContentPassState.init with
        in_presentation := true, in_page := true, current_elements := [] }
    ⟨rfl, rfl, rfl, rfl, rfl, rfl⟩ rfl
  simp only [build_content]
  rw [show emptyTextDoc.slides =
    [{ Slide.new with elements := [.text emptyTextElem] }] from rfl]
  have hW1n : ∀ e ∈ (writeSlides 0 0 0
      [{ Slide.new with elements := [.text emptyTextElem] }]).1, neutralEvent e :=
    neutral_writeSlides _ 0 0 0
  rw [show (writeSlides 0 0 0
      [{ Slide.new with elements := [.text emptyTextElem] }]).2.1 =
    ([XmlEvent.start "draw:page" (pageAttrs 0), ws] ++
      (writeElements 0 0 0 [.text emptyTextElem]).2.1 ++
      [XmlEvent.close "draw:page", ws] ++ []) from rfl]
  generalize hW1 : (writeSlides 0 0 0
    [{ Slide.new with elements := [.text emptyTextElem] }]).1 = W1 at hW1n ⊢
  generalize hEL : (writeElements 0 0 0 [.text emptyTextElem]).2.1 = ELS at he1 ⊢
  simp only [List.foldl_append]
  have hP1 : ∀ e ∈ [XmlEvent.decl,
      XmlEvent.start "office:document-content" [("office:version", "1.2")], ws,
      XmlEvent.start "office:automatic-styles" [], ws], neutralEvent e := by
    intro e he
    fin_cases he <;> decide
  rw [foldl_neutral ST (odpArchive emptyTextDoc) _ hP1 ContentPassState.init rfl,
    foldl_neutral ST (odpArchive emptyTextDoc) _ neutral_dpAuto ContentPassState.init rfl,
    foldl_neutral ST (odpArchive emptyTextDoc) _ hW1n ContentPassState.init rfl]
  simp only [List.foldl_cons, List.foldl_nil]
  rw [step_neutral ST (odpArchive emptyTextDoc) ContentPassState.init
      (.close "office:automatic-styles") (by decide) rfl,
    step_ws ST (odpArchive emptyTextDoc) ContentPassState.init rfl,
    step_neutral ST (odpArchive emptyTextDoc) ContentPassState.init
      (.start "office:body" []) (by decide) rfl,
    step_ws ST (odpArchive emptyTextDoc) ContentPassState.init rfl,
    step_start_presentation ST (odpArchive emptyTextDoc) ContentPassState.init [],
    step_ws ST (odpArchive emptyTextDoc)
      { ContentPassState.init with in_presentation := true } rfl,
    step_start_page ST (odpArchive emptyTextDoc)
      { ContentPassState.init with in_presentation := true } (pageAttrs 0) rfl]
  dsimp only
  rw [step_ws ST (odpArchive emptyTextDoc)
      { ContentPassState.init with
          in_presentation := true, in_page := true, current_elements := [] } rfl,
    he1]
  obtain ⟨p1, p2, p3, p4, p5, p6⟩ := hr1
  rw [step_close_page ST (odpArchive emptyTextDoc) s1 p2,
    step_ws ST (odpArchive emptyTextDoc)
      { s1 with in_page := false, current_elements := [],
                slides := s1.slides ++
                  [{ Slide.new with elements := s1.current_elements }] } p6,
    step_close_presentation ST (odpArchive emptyTextDoc)
      { s1 with in_page := false, current_elements := [],
                slides := s1.slides ++
                  [{ Slide.new with elements := s1.current_elements }] }]
  dsimp only
  rw [step_ws ST (odpArchive emptyTextDoc)
      { s1 with in_presentation := false, in_page := false, current_elements := [],
                slides := s1.slides ++
                  [{ Slide.new with elements := s1.current_elements }] } p6,
    step_neutral ST (odpArchive emptyTextDoc)
      { s1 with in_presentation := false, in_page := false, current_elements := [],
                slides := s1.slides ++
                  [{ Slide.new with elements := s1.current_elements }] }
      (.close "office:body") (by decide) p6,
    step_ws ST (odpArchive emptyTextDoc)
      { s1 with in_presentation := false, in_page := false, current_elements := [],
                slides := s1.slides ++
                  [{ Slide.new with elements := s1.current_elements }] } p6,
    step_neutral ST (odpArchive emptyTextDoc)
      { s1 with in_presentation := false, in_page := false, current_elements := [],
                slides := s1.slides ++
                  [{ Slide.new with elements := s1.current_elements }] }
      (.close "office:document-content") (by decide) p6,
    step_ws ST (odpArchive emptyTextDoc)
      { s1 with in_presentation := false, in_page := false, current_elements := [],
                slides := s1.slides ++
                  [{ Slide.new with elements := s1.current_elements }] } p6]
  dsimp only
  rw [show s1.slides = ([] : List Slide) from hsl1.trans rfl,
    show s1.current_elements = ([] : List SlideElement) from hel1.trans rfl]
  simp

/-- C1 counterexample: a document whose single slide holds a text element with
an empty paragraph list does not round-trip: the writer emits an empty text
box, the reader drops it (a text element is only recorded when at least one
paragraph was read), and the reloaded slide has zero elements instead of one. -/
theorem odp_roundtrip_cex :
    ¬ List.Forall₂ slideMatches
      (parse_content (build_content emptyTextDoc).1 (odpArchive emptyTextDoc)).slides
      emptyTextDoc.slides := by
  rw [cex_main,
    show emptyTextDoc.slides =
      [{ Slide.new with elements := [.text emptyTextElem] }] from rfl]
  intro h
  cases h with
  | cons hm _ =>
      unfold slideMatches at hm
      dsimp only at hm
      rw [List.forall₂_nil_left_iff] at hm
      simp at hm

theorem odp_roundtrip_witness :
    (blueRectDoc.slides ≠ []) ∧
    (∀ sl ∈ blueRectDoc.slides, ∀ el ∈ sl.elements, textParasNonempty el) ∧
    (∀ sl ∈ blueRectDoc.slides, ∀ el ∈ sl.elements, lineSizeNonneg el) ∧
    (List.Forall₂ slideMatches
      (parse_content (build_content blueRectDoc).1 (odpArchive blueRectDoc)).slides
      blueRectDoc.slides ∧
     (parse_content (build_content blueRectDoc).1 (odpArchive blueRectDoc)).slides.length
       = blueRectDoc.slides.length) := by
  have h1 : blueRectDoc.slides ≠ [] := by simp [blueRectDoc]
  have h2 : ∀ sl ∈ blueRectDoc.slides, ∀ el ∈ sl.elements, textParasNonempty el := by
    intro sl hsl el hel
    simp only [blueRectDoc, List.mem_singleton] at hsl
    subst hsl
    simp only [List.mem_singleton] at hel
    subst hel
    trivial
  have h3 : ∀ sl ∈ blueRectDoc.slides, ∀ el ∈ sl.elements, lineSizeNonneg el := by
    intro sl hsl el hel
    simp only [blueRectDoc, List.mem_singleton] at hsl
    subst hsl
    simp only [List.mem_singleton] at hel
    subst hel
    intro hline
    exact absurd hline (by decide)
  exact ⟨h1, h2, h3, odp_roundtrip blueRectDoc h1 h2 h3⟩

end Lumina
